import Mathlib

/-!
Verification of the message scheduling and threading engine of the EmailSystem
repository, as a shallow embedding of the relevant parts of src/app/page.tsx.

Numbers in the source are JavaScript numbers; they are modelled as rationals.
Sources of nondeterminism are passed in explicitly:
clock i is the value Date.now() (or new Date()) yields at the scheduling step
for message i, rand i is the Math.random() draw for message i, and
sendResult i is the outcome of the mail-dispatch call for message i
(some transportMessageId on success, none when the call throws).
The dispatch loop additionally records one observable SendOutcome per message,
capturing exactly which previousMessageId each dispatch call received and what
it returned, so that the threading and accounting properties can be stated.
-/

namespace EmailSystem

/-- SMTP credentials of an account (interface EmailConfig in src/app/page.tsx). -/
structure EmailConfig where
  smtpHost : String
  smtpPort : Int
  smtpUser : String
  smtpPassword : String
  smtpSecure : Option Bool := none
deriving DecidableEq

/-- A persona (interface Account in src/app/page.tsx). -/
structure Account where
  id : String
  name : String
  email : String
  personality : Option String := none
  emailConfig : Option EmailConfig := none
deriving DecidableEq

/-- Token usage metadata attached to a generated message. -/
structure TokenUsage where
  input : ℚ
  output : ℚ
  total : ℚ
deriving DecidableEq

/-- One conversation message (interface Message in src/app/page.tsx).
Timestamps and scheduled times are epoch milliseconds. -/
structure Message where
  id : String
  accountId : String
  accountName : String
  accountEmail : String
  content : String
  timestamp : ℚ
  sent : Option Bool := none
  scheduledSendTime : Option ℚ := none
  emailMessageId : Option String := none
  cost : Option ℚ := none
  tokens : Option TokenUsage := none
deriving DecidableEq

/-- A conversation (interface Conversation in src/app/page.tsx). -/
structure Conversation where
  id : String
  name : String
  selectedAccount : Option Account
  otherAccounts : List Account
  messages : List Message
  prompt : String
  minDelayMinutes : ℚ
  maxDelayMinutes : ℚ
  conversationLength : Nat
  emailSubject : Option String := none
deriving DecidableEq

/-- Default message, used as the List.getD fallback. -/
def noMessage : Message :=
  { id := "", accountId := "", accountName := "", accountEmail := "", content := "",
    timestamp := 0 }

/-- Default account, used as the List.getD fallback. -/
def noAccount : Account := { id := "", name := "", email := "" }

/-- minDelayMs of handleSendAllMessages: conv.minDelayMinutes * 60 * 1000. -/
def minDelayMs (conv : Conversation) : ℚ := conv.minDelayMinutes * 60 * 1000

/-- maxDelayMs of handleSendAllMessages: conv.maxDelayMinutes * 60 * 1000. -/
def maxDelayMs (conv : Conversation) : ℚ := conv.maxDelayMinutes * 60 * 1000

/-- Math.floor(Math.random() * (maxDelayMs - minDelayMs + 1)) + minDelayMs,
where r is the value Math.random() returned for this draw. -/
def randomDelay (minMs maxMs r : ℚ) : ℚ :=
  ((Int.floor (r * (maxMs - minMs + 1)) : ℤ) : ℚ) + minMs

/-- Value of the cumulativeDelay accumulator right after the scheduling step for
message i (message 0 draws no delay). -/
def cumDelay (minMs maxMs : ℚ) (rand : Nat → ℚ) : Nat → ℚ
  | 0 => 0
  | i + 1 => cumDelay minMs maxMs rand i + randomDelay minMs maxMs (rand (i + 1))

/-- The body of the schedule-assignment pass of handleSendAllMessages
(conv.messages.map with index i and the mutable cumulativeDelay accumulator cum):
message 0 gets scheduledSendTime = new Date(), every later message i draws a
random delay, adds it to the accumulator and gets Date.now() + cumulativeDelay.
Note that the source reads the clock inside the map callback, once per message. -/
def scheduleGo (minMs maxMs : ℚ) (clock rand : Nat → ℚ) :
    Nat → ℚ → List Message → List Message
  | _, _, [] => []
  | i, cum, message :: rest =>
    if i = 0 then
      { message with scheduledSendTime := some (clock i) } ::
        scheduleGo minMs maxMs clock rand (i + 1) cum rest
    else
      let d := randomDelay minMs maxMs (rand i)
      { message with scheduledSendTime := some (clock i + (cum + d)) } ::
        scheduleGo minMs maxMs clock rand (i + 1) (cum + d) rest

/-- The messagesWithSchedule list computed by handleSendAllMessages. -/
def scheduleMessages (conv : Conversation) (clock rand : Nat → ℚ) : List Message :=
  scheduleGo (minDelayMs conv) (maxDelayMs conv) clock rand 0 0 conv.messages

/-- Scheduled send time of message i as a plain rational (0 when absent). -/
def schedTime (conv : Conversation) (clock rand : Nat → ℚ) (i : Nat) : ℚ :=
  (((scheduleMessages conv clock rand).getD i noMessage).scheduledSendTime).getD 0

/-- Observable outcome of one iteration of the dispatch loop of
handleSendAllMessages: the message was skipped because its sender had no usable
mail configuration, skipped because the recipient list was empty, dispatched
successfully (recording the previousMessageId passed to the call and the
returned Message-ID), or dispatched and failed (recording the
previousMessageId passed to the call). -/
inductive SendOutcome where
  | skippedNoConfig (name : String)
  | skippedNoRecipients
  | sentOk (prev : Option String) (newId : String)
  | sendFailed (prev : Option String)
deriving DecidableEq

/-- True for a successfully dispatched message. -/
def SendOutcome.isSent : SendOutcome → Bool
  | .sentOk _ _ => true
  | _ => false

/-- True for a message whose dispatch call threw. -/
def SendOutcome.isFailed : SendOutcome → Bool
  | .sendFailed _ => true
  | _ => false

/-- True for a message that was skipped without any dispatch call. -/
def SendOutcome.isSkip : SendOutcome → Bool
  | .skippedNoConfig _ => true
  | .skippedNoRecipients => true
  | _ => false

/-- True when a dispatch call was actually made for the message. -/
def SendOutcome.isDispatch : SendOutcome → Bool
  | .sentOk _ _ => true
  | .sendFailed _ => true
  | _ => false

/-- The previousMessageId argument the dispatch call received, for dispatched
messages. -/
def SendOutcome.prevId : SendOutcome → Option String
  | .sentOk p _ => p
  | .sendFailed p => p
  | _ => none

/-- The transport Message-ID returned by a successful dispatch. -/
def SendOutcome.sentId : SendOutcome → Option String
  | .sentOk _ n => some n
  | _ => none

/-- Default outcome, used as the List.getD fallback. -/
def noOutcome : SendOutcome := .skippedNoRecipients

/-- The success write-back of the dispatch loop: replace-by-id, marking the
dispatched message sent, clearing its scheduled time and storing the returned
Message-ID. -/
def markSent (msgs : List Message) (targetId mid : String) : List Message :=
  msgs.map fun m =>
    if m.id = targetId then
      { m with sent := some true, scheduledSendTime := none, emailMessageId := some mid }
    else m

/-- The failure write-back of the dispatch loop: replace-by-id, clearing the
scheduled time only (sent stays untouched). -/
def markFailed (msgs : List Message) (targetId : String) : List Message :=
  msgs.map fun m => if m.id = targetId then { m with scheduledSendTime := none } else m

/-- Mutable state of the dispatch loop: the conversation's message list as held
in the store, the sentCount counter, the skippedAccounts list and the
lastMessageId variable holding the thread-linkage identifier. -/
structure LoopState where
  store : List Message
  sentCount : Nat
  skipped : List String
  lastMessageId : Option String
deriving DecidableEq

/-- allParticipants of handleSendAllMessages:
[conv.selectedAccount, ...conv.otherAccounts].filter(Boolean). -/
def batchParticipants (conv : Conversation) : List Account :=
  match conv.selectedAccount with
  | some a => a :: conv.otherAccounts
  | none => conv.otherAccounts

/-- True when the loop skips the message: its sender is not found among the
participants, or is found but has no emailConfig. -/
def senderUnconfigured (participants : List Account) (message : Message) : Bool :=
  match participants.find? (fun acc => acc.id == message.accountId) with
  | none => true
  | some acc => acc.emailConfig.isNone

/-- The outcome the loop body produces for message at index i when the held
thread-linkage identifier is prev; it only depends on these arguments. -/
def expectedOutcome (participants : List Account) (sendResult : Nat → Option String)
    (prev : Option String) (i : Nat) (message : Message) : SendOutcome :=
  match participants.find? (fun acc => acc.id == message.accountId) with
  | none => .skippedNoConfig message.accountName
  | some senderAccount =>
    match senderAccount.emailConfig with
    | none => .skippedNoConfig message.accountName
    | some _ =>
      if (participants.filter (fun acc => acc.id != message.accountId)).isEmpty then
        .skippedNoRecipients
      else
        match sendResult i with
        | some mid => .sentOk prev mid
        | none => .sendFailed prev

/-- One iteration of the dispatch loop of handleSendAllMessages, translated
branch by branch: resolve the sender among the participants and skip (recording
the account name once) when unconfigured; skip when the recipient list is
empty; otherwise dispatch, and on success mark the message sent and advance
lastMessageId, on failure clear the scheduled time and keep lastMessageId. -/
def processMessage (participants : List Account) (sendResult : Nat → Option String)
    (i : Nat) (message : Message) (s : LoopState) : LoopState × SendOutcome :=
  match participants.find? (fun acc => acc.id == message.accountId) with
  | none =>
    ({ s with skipped := if s.skipped.contains message.accountName then s.skipped
                         else s.skipped ++ [message.accountName] },
     .skippedNoConfig message.accountName)
  | some senderAccount =>
    match senderAccount.emailConfig with
    | none =>
      ({ s with skipped := if s.skipped.contains message.accountName then s.skipped
                           else s.skipped ++ [message.accountName] },
       .skippedNoConfig message.accountName)
    | some _ =>
      let recipients := participants.filter (fun acc => acc.id != message.accountId)
      if recipients.isEmpty then (s, .skippedNoRecipients)
      else
        match sendResult i with
        | some mid =>
          ({ store := markSent s.store message.id mid,
             sentCount := s.sentCount + 1,
             skipped := s.skipped,
             lastMessageId := some mid },
           .sentOk s.lastMessageId mid)
        | none =>
          ({ s with store := markFailed s.store message.id },
           .sendFailed s.lastMessageId)

/-- The dispatch loop of handleSendAllMessages over the scheduled messages,
starting at index i, also returning the outcome log in list order. -/
def sendLoop (participants : List Account) (sendResult : Nat → Option String) :
    Nat → List Message → LoopState → LoopState × List SendOutcome
  | _, [], s => (s, [])
  | i, message :: rest, s =>
    let r := processMessage participants sendResult i message s
    let r2 := sendLoop participants sendResult (i + 1) rest r.1
    (r2.1, r.2 :: r2.2)

/-- Result of one send-all batch: the scheduled list written back before
dispatch, the message list after the batch, the sent / total counters, the
deduplicated skipped account names, and the per-message outcome log. -/
structure BatchRun where
  scheduled : List Message
  finalMessages : List Message
  sentCount : Nat
  totalCount : Nat
  skippedAccountNames : List String
  log : List SendOutcome
deriving DecidableEq

/-- The body of handleSendAllMessages after its guards: schedule all messages,
write the schedule back, then run the sequential dispatch loop. -/
def runBatch (conv : Conversation) (clock rand : Nat → ℚ)
    (sendResult : Nat → Option String) : BatchRun :=
  let allParticipants := batchParticipants conv
  let messagesWithSchedule := scheduleMessages conv clock rand
  let init : LoopState :=
    { store := messagesWithSchedule, sentCount := 0, skipped := [], lastMessageId := none }
  let r := sendLoop allParticipants sendResult 0 messagesWithSchedule init
  { scheduled := messagesWithSchedule,
    finalMessages := r.1.store,
    sentCount := r.1.sentCount,
    totalCount := conv.messages.length,
    skippedAccountNames := r.1.skipped,
    log := r.2 }

/-- handleSendAllMessages: refuses an empty message list, otherwise runs the
batch. -/
def handleSendAllMessages (conv : Conversation) (clock rand : Nat → ℚ)
    (sendResult : Nat → Option String) : Option BatchRun :=
  if conv.messages.length = 0 then none
  else some (runBatch conv clock rand sendResult)

/-- Reply produced by the message-generation endpoint: the text plus optional
usage metadata. -/
structure GenReply where
  content : String
  cost : Option ℚ := none
  tokens : Option TokenUsage := none
deriving DecidableEq

/-- Arguments of one call to the generate-message endpoint: the sender account,
the other participants, and the conversation history passed along. -/
structure GenCall where
  sender : Account
  others : List Account
  history : List Message
deriving DecidableEq

/-- Default call record, used as the List.getD fallback. -/
def noCall : GenCall := { sender := noAccount, others := [], history := [] }

/-- The round-robin sender of iteration i:
allParticipants[i % allParticipants.length]. -/
def genSender (participants : List Account) (i : Nat) : Account :=
  participants.getD (i % participants.length) noAccount

/-- The generator call of iteration i: the round-robin sender, the remaining
participants (filter by index), and the accumulated history. -/
def genCallAt (participants : List Account) (i : Nat) (history : List Message) : GenCall :=
  { sender := genSender participants i,
    others := participants.eraseIdx (i % participants.length),
    history := history }

/-- The message built at iteration i from the generator's reply: denormalized
sender snapshot plus content and usage metadata; idGen i models
Date.now().toString() + i and tsGen i the new Date() timestamp. -/
def genMessageAt (participants : List Account) (idGen : Nat → String) (tsGen : Nat → ℚ)
    (i : Nat) (reply : GenReply) : Message :=
  { id := idGen i, accountId := (genSender participants i).id,
    accountName := (genSender participants i).name,
    accountEmail := (genSender participants i).email,
    content := reply.content, timestamp := tsGen i,
    cost := reply.cost, tokens := reply.tokens }

/-- The for-loop of handleGenerateFullConversation, iterating rem more times
starting at iteration i: pick the sender round-robin, call the generator with
the accumulated history, abort on the first failed call, otherwise append the
new message to the history and continue. gen i is the reply of call i (none
when the call fails or returns a blank message). -/
def genLoop (participants : List Account) (gen : Nat → Option GenReply)
    (idGen : Nat → String) (tsGen : Nat → ℚ) :
    Nat → Nat → List Message → List GenCall × List Message × Bool
  | _, 0, _ => ([], [], true)
  | i, rem + 1, currentHistory =>
    let call := genCallAt participants i currentHistory
    match gen i with
    | none => ([call], [], false)
    | some reply =>
      let newMessage := genMessageAt participants idGen tsGen i reply
      let r := genLoop participants gen idGen tsGen (i + 1) rem (currentHistory ++ [newMessage])
      (call :: r.1, newMessage :: r.2.1, r.2.2)

/-- handleGenerateFullConversation: after its guards, run the generation loop
over allParticipants = [conv.selectedAccount, ...conv.otherAccounts]; only when
every iteration succeeded are the generated messages appended to the
conversation (and the prompt cleared) — the catch block leaves the
conversation untouched. Also returns the list of generator calls made. -/
def handleGenerateFullConversation (conv : Conversation) (gen : Nat → Option GenReply)
    (idGen : Nat → String) (tsGen : Nat → ℚ) : Conversation × List GenCall :=
  match conv.selectedAccount with
  | none => (conv, [])
  | some sel =>
    if conv.otherAccounts.isEmpty then (conv, [])
    else
      let allParticipants := sel :: conv.otherAccounts
      let r := genLoop allParticipants gen idGen tsGen 0 conv.conversationLength conv.messages
      if r.2.2 then
        ({ conv with messages := conv.messages ++ r.2.1, prompt := "" }, r.1)
      else (conv, r.1)

/-- Subject string handleCreateConversationWithName derives from the name. -/
def subjectFor (name : String) : String := "Conversation: " ++ name.trim

/-- The conversation record handleCreateConversationWithName builds (idStr
models Date.now().toString()). -/
def mkConversation (name idStr : String) : Conversation :=
  { id := idStr, name := name.trim, selectedAccount := none, otherAccounts := [],
    messages := [], prompt := "", minDelayMinutes := 1, maxDelayMinutes := 5,
    conversationLength := 6, emailSubject := some (subjectFor name) }

/-- The minimum-delay edit handler: set min and raise max to min when it was
below it. -/
def setMinDelayMinutes (c : Conversation) (minValue : ℚ) : Conversation :=
  { c with minDelayMinutes := minValue,
           maxDelayMinutes :=
             if c.maxDelayMinutes < minValue then minValue else c.maxDelayMinutes }

/-- The maximum-delay edit handler: set max and lower min to max when it was
above it. -/
def setMaxDelayMinutes (c : Conversation) (maxValue : ℚ) : Conversation :=
  { c with maxDelayMinutes := maxValue,
           minDelayMinutes :=
             if c.minDelayMinutes > maxValue then maxValue else c.minDelayMinutes }

/-- The localStorage load-time migration of the delay fields: default a missing
min to 1 and a missing max to 5, and when the legacy delayBetweenMessages field
(seconds) is present, use its value in minutes for both bounds. -/
def migrateDelays (storedMin storedMax delayBetweenMessages : Option ℚ) : ℚ × ℚ :=
  let minD := storedMin.getD 1
  let maxD := storedMax.getD 5
  match delayBetweenMessages with
  | some d => (d / 60, d / 60)
  | none => (minD, maxD)

/-- Reloading a saved conversation through the migration, with an optional
legacy delayBetweenMessages value alongside it. -/
def migrateConversation (c : Conversation) (delayBetweenMessages : Option ℚ) : Conversation :=
  { c with
    minDelayMinutes :=
      (migrateDelays (some c.minDelayMinutes) (some c.maxDelayMinutes) delayBetweenMessages).1,
    maxDelayMinutes :=
      (migrateDelays (some c.minDelayMinutes) (some c.maxDelayMinutes) delayBetweenMessages).2 }

/-- Conversations reachable through creation, the two delay edit handlers,
storage migration, and any mutation that leaves the delay fields unchanged. -/
inductive ReachableConv : Conversation → Prop where
  | created (name idStr : String) : ReachableConv (mkConversation name idStr)
  | editMin (c : Conversation) (v : ℚ) :
      ReachableConv c → ReachableConv (setMinDelayMinutes c v)
  | editMax (c : Conversation) (v : ℚ) :
      ReachableConv c → ReachableConv (setMaxDelayMinutes c v)
  | migrated (c : Conversation) (d : Option ℚ) :
      ReachableConv c → ReachableConv (migrateConversation c d)
  | delaysKept (c c2 : Conversation) :
      ReachableConv c → c2.minDelayMinutes = c.minDelayMinutes →
      c2.maxDelayMinutes = c.maxDelayMinutes → ReachableConv c2

/-- Deduplicating push used for the skippedAccounts list. -/
def pushUnique (l : List String) (n : String) : List String :=
  if l.contains n then l else l ++ [n]

/-- One step of the skipped-name accumulation, phrased over the message list. -/
def skipStep (participants : List Account) (acc : List String) (m : Message) : List String :=
  if senderUnconfigured participants m then pushUnique acc m.accountName else acc

/-- The skipped-account names the loop accumulates over a message list. -/
def skipFold (participants : List Account) (init : List String) (msgs : List Message) :
    List String :=
  msgs.foldl (skipStep participants) init

/-- How one loop iteration updates the held thread-linkage identifier: a
successful send replaces it, everything else keeps it. -/
def lastUpd (held : Option String) : SendOutcome → Option String
  | .sentOk _ mid => some mid
  | _ => held

/-- The thread-linkage identifier held when the loop reaches index k, given the
outcome log and the initial value. -/
def prevAt (init : Option String) (log : List SendOutcome) : Nat → Option String
  | 0 => init
  | k + 1 => lastUpd (prevAt init log k) (log.getD k noOutcome)

/-- The per-message transform a single outcome applies to its own message. -/
def applyWrite (m : Message) : SendOutcome → Message
  | .sentOk _ mid =>
    { m with sent := some true, scheduledSendTime := none, emailMessageId := some mid }
  | .sendFailed _ => { m with scheduledSendTime := none }
  | _ => m

/-- The store-level write one outcome performs (no write for skips). -/
def applyWrite1 (store : List Message) (targetId : String) : SendOutcome → List Message
  | .sentOk _ mid => markSent store targetId mid
  | .sendFailed _ => markFailed store targetId
  | _ => store

/-- All store-level writes of a batch, in loop order. -/
def applyWrites (store : List Message) : List (Message × SendOutcome) → List Message
  | [] => store
  | (m, o) :: rest => applyWrites (applyWrite1 store m.id o) rest

/-- Pointwise view of one store-level write at a fixed list position. -/
def pointwiseWrite (m : Message) (targetId : String) (o : SendOutcome) : Message :=
  if m.id = targetId then applyWrite m o else m

/-- Pointwise view of all the writes of a batch at a fixed list position. -/
def writeFold (m : Message) : List (Message × SendOutcome) → Message
  | [] => m
  | (t, o) :: rest => writeFold (pointwiseWrite m t.id o) rest

/-- True when a dispatch call would be made for the message: sender resolved
with credentials and at least one recipient. -/
def wouldDispatch (participants : List Account) (m : Message) : Bool :=
  !senderUnconfigured participants m &&
    !(participants.filter (fun acc => acc.id != m.accountId)).isEmpty

/-- SMTP settings shared by the configured test accounts. -/
def smtpMain : EmailConfig :=
  { smtpHost := "smtp.example.com", smtpPort := 587, smtpUser := "user", smtpPassword := "pw" }

/-- A configured account. -/
def acctA : Account :=
  { id := "a1", name := "Alice", email := "alice@example.com", emailConfig := some smtpMain }

/-- A second configured account. -/
def acctB : Account :=
  { id := "b1", name := "Bob", email := "bob@example.com", emailConfig := some smtpMain }

/-- An account without mail credentials. -/
def acctZ : Account :=
  { id := "z1", name := "Z", email := "z@example.com" }

/-- A message authored by the given account. -/
def msgBy (idStr : String) (acc : Account) (ts : ℚ) : Message :=
  { id := idStr, accountId := acc.id, accountName := acc.name, accountEmail := acc.email,
    content := "hello", timestamp := ts }

/-- Concrete message ids and transport ids used by the test batches. -/
def idm0 : String := "m0"

def idm1 : String := "m1"

def idm2 : String := "m2"

def idn0 : String := "n0"

def idn1 : String := "n1"

def idq0 : String := "q0"

def idq1 : String := "q1"

def idq2 : String := "q2"

def ids0 : String := "s0"

def tid0 : String := "tid0"

def tid2 : String := "tid2"

def w4tid : String := "w4id"

def c6tid : String := "c6new"

/-- Constant clock at epoch 0. -/
def constClock : Nat → ℚ := fun _ => 0

/-- A clock advancing one second per reading. -/
def advClock : Nat → ℚ := fun i => 1000 * i

/-- Math.random stub always drawing 0. -/
def zeroRand : Nat → ℚ := fun _ => 0

/-- Three-message conversation from Alice with Bob as the other participant. -/
def w1conv : Conversation :=
  { id := "c1", name := "w1", selectedAccount := some acctA, otherAccounts := [acctB],
    messages := [msgBy idm0 acctA 0, msgBy idm1 acctA 1, msgBy idm2 acctA 2],
    prompt := "", minDelayMinutes := 1, maxDelayMinutes := 1, conversationLength := 6 }

/-- Transport outcomes: message 0 succeeds, message 1 throws, later ones
succeed. -/
def w1send : Nat → Option String
  | 0 => some tid0
  | 1 => none
  | _ => some tid2

/-- The batch of w1conv. -/
def w1batch : BatchRun := runBatch w1conv constClock zeroRand w1send

/-- Fixed-delay three-message conversation with senders Alice, Bob, Alice. -/
def w2conv : Conversation :=
  { id := "c2", name := "w2", selectedAccount := some acctA, otherAccounts := [acctB],
    messages := [msgBy idq0 acctA 0, msgBy idq1 acctB 1, msgBy idq2 acctA 2],
    prompt := "", minDelayMinutes := 1, maxDelayMinutes := 1, conversationLength := 6 }

/-- Two-message conversation where the second message's author Z has no mail
credentials. -/
def w4conv : Conversation :=
  { id := "c4", name := "w4", selectedAccount := some acctA, otherAccounts := [acctZ],
    messages := [msgBy idn0 acctA 0, msgBy idn1 acctZ 1],
    prompt := "", minDelayMinutes := 1, maxDelayMinutes := 1, conversationLength := 6 }

/-- Transport always succeeds for w4conv. -/
def w4send : Nat → Option String := fun _ => some w4tid

/-- The batch of w4conv. -/
def w4batch : BatchRun := runBatch w4conv constClock zeroRand w4send

/-- Two-message conversation used against the fixed-now-baseline claim. -/
def c5conv : Conversation :=
  { id := "c5", name := "c5", selectedAccount := some acctA, otherAccounts := [acctB],
    messages := [msgBy idm0 acctA 0, msgBy idm1 acctA 1],
    prompt := "", minDelayMinutes := 1, maxDelayMinutes := 1, conversationLength := 6 }

/-- One-message conversation whose only message is already marked sent. -/
def c6conv : Conversation :=
  { id := "c6", name := "c6", selectedAccount := some acctA, otherAccounts := [acctB],
    messages := [{ msgBy ids0 acctA 0 with sent := some true }],
    prompt := "", minDelayMinutes := 1, maxDelayMinutes := 1, conversationLength := 6 }

/-- Transport always succeeds for c6conv. -/
def c6send : Nat → Option String := fun _ => some c6tid

/-- The batch of c6conv. -/
def c6batch : BatchRun := runBatch c6conv constClock zeroRand c6send

/-- Empty conversation used to exercise the generation loop. -/
def w7conv : Conversation :=
  { id := "c7", name := "w7", selectedAccount := some acctA, otherAccounts := [acctB],
    messages := [], prompt := "", minDelayMinutes := 1, maxDelayMinutes := 5,
    conversationLength := 3 }

/-- Generator that always replies. -/
def w7gen : Nat → Option GenReply := fun _ => some { content := "text" }

/-- Generated-message id stub. -/
def w7idGen : Nat → String := fun i => toString i

/-- Generated-message timestamp stub. -/
def w7tsGen : Nat → ℚ := fun _ => 0

/-- Name and id used for the created conversation of the delay-edit witness. -/
def w8name : String := "Chat"

def w8id : String := "77"

/-- A created conversation whose minimum delay was raised above its maximum. -/
def w8conv : Conversation := setMinDelayMinutes (mkConversation w8name w8id) 9

/-- The scheduling pass preserves the list length. -/
theorem scheduleGo_length (minMs maxMs : ℚ) (clock rand : Nat → ℚ) :
    ∀ (msgs : List Message) (i : Nat) (cum : ℚ),
      (scheduleGo minMs maxMs clock rand i cum msgs).length = msgs.length := by
  intro msgs
  induction msgs with
  | nil => intro i cum; rfl
  | cons m rest ih =>
    intro i cum
    by_cases h : i = 0 <;> simp [scheduleGo, h, ih]

/-- Element k of a scheduling pass that starts past index 0 with the cumulative
delay of index j. -/
theorem scheduleGo_succ_getD (minMs maxMs : ℚ) (clock rand : Nat → ℚ) :
    ∀ (msgs : List Message) (j k : Nat), k < msgs.length →
      (scheduleGo minMs maxMs clock rand (j + 1) (cumDelay minMs maxMs rand j) msgs).getD
          k noMessage
        = { msgs.getD k noMessage with
            scheduledSendTime :=
              some (clock (j + 1 + k) + cumDelay minMs maxMs rand (j + 1 + k)) } := by
  intro msgs
  induction msgs with
  | nil => intro j k hk; simp at hk
  | cons m rest ih =>
    intro j k hk
    cases k with
    | zero =>
      simp [scheduleGo, cumDelay]
    | succ k =>
      have hk2 : k < rest.length := by simpa using Nat.lt_of_succ_lt_succ hk
      have hidx : j + 1 + (k + 1) = (j + 1) + 1 + k := by omega
      have hstep := ih (j + 1) k hk2
      simp only [scheduleGo, if_neg (Nat.succ_ne_zero j), List.getD_cons_succ, hidx]
      exact hstep

/-- Element k of the messagesWithSchedule list: the original message with
scheduledSendTime set to that step's clock reading plus the cumulative delay. -/
theorem scheduleMessages_getD (conv : Conversation) (clock rand : Nat → ℚ)
    (k : Nat) (hk : k < conv.messages.length) :
    (scheduleMessages conv clock rand).getD k noMessage
      = { conv.messages.getD k noMessage with
          scheduledSendTime :=
            some (clock k + cumDelay (minDelayMs conv) (maxDelayMs conv) rand k) } := by
  unfold scheduleMessages
  rcases hm : conv.messages with _ | ⟨m, rest⟩
  · rw [hm] at hk; simp at hk
  · rw [hm] at hk
    cases k with
    | zero =>
      simp [scheduleGo, cumDelay]
    | succ k =>
      have hk2 : k < rest.length := by simpa using Nat.lt_of_succ_lt_succ hk
      have hidx : 0 + 1 + k = k + 1 := by omega
      have hstep :=
        scheduleGo_succ_getD (minDelayMs conv) (maxDelayMs conv) clock rand rest 0 k hk2
      rw [hidx] at hstep
      simpa [scheduleGo, cumDelay] using hstep

/-- The messagesWithSchedule list has the same length as the original. -/
theorem scheduleMessages_length (conv : Conversation) (clock rand : Nat → ℚ) :
    (scheduleMessages conv clock rand).length = conv.messages.length :=
  scheduleGo_length (minDelayMs conv) (maxDelayMs conv) clock rand conv.messages 0 0

/-- The scheduling pass does not touch message ids. -/
theorem scheduleGo_map_id (minMs maxMs : ℚ) (clock rand : Nat → ℚ) :
    ∀ (msgs : List Message) (i : Nat) (cum : ℚ),
      (scheduleGo minMs maxMs clock rand i cum msgs).map Message.id
        = msgs.map Message.id := by
  intro msgs
  induction msgs with
  | nil => intro i cum; rfl
  | cons m rest ih =>
    intro i cum
    by_cases h : i = 0 <;> simp [scheduleGo, h, ih]

/-- The messagesWithSchedule list keeps the original message ids. -/
theorem scheduleMessages_map_id (conv : Conversation) (clock rand : Nat → ℚ) :
    (scheduleMessages conv clock rand).map Message.id
      = conv.messages.map Message.id :=
  scheduleGo_map_id (minDelayMs conv) (maxDelayMs conv) clock rand conv.messages 0 0

/-- Every drawn delay lies in the closed range [minDelayMs, maxDelayMs], given
an integer-width range and a Math.random value in [0, 1). -/
theorem randomDelay_bounds (minMs maxMs r : ℚ) (z : ℤ) (hz : maxMs - minMs = (z : ℚ))
    (hr0 : 0 ≤ r) (hr1 : r < 1) (hmm : minMs ≤ maxMs) :
    minMs ≤ randomDelay minMs maxMs r ∧ randomDelay minMs maxMs r ≤ maxMs := by
  have hz0 : (0 : ℚ) ≤ (z : ℚ) := by rw [← hz]; linarith
  have hz0i : (0 : ℤ) ≤ z := by exact_mod_cast hz0
  have hfac : (0 : ℚ) ≤ maxMs - minMs + 1 := by linarith
  constructor
  · have h0 : (0 : ℤ) ≤ Int.floor (r * (maxMs - minMs + 1)) :=
      Int.floor_nonneg.mpr (mul_nonneg hr0 hfac)
    have h0q : (0 : ℚ) ≤ ((Int.floor (r * (maxMs - minMs + 1)) : ℤ) : ℚ) := by
      exact_mod_cast h0
    unfold randomDelay
    linarith
  · have hlt : r * (maxMs - minMs + 1) < ((z + 1 : ℤ) : ℚ) := by
      rw [hz]
      push_cast
      have hpos : (0 : ℚ) < (z : ℚ) + 1 := by linarith
      calc r * ((z : ℚ) + 1) < 1 * ((z : ℚ) + 1) := by
            exact mul_lt_mul_of_pos_right hr1 hpos
        _ = (z : ℚ) + 1 := one_mul _
    have hfl : Int.floor (r * (maxMs - minMs + 1)) < z + 1 := Int.floor_lt.mpr hlt
    have hle : Int.floor (r * (maxMs - minMs + 1)) ≤ z := by omega
    have hleq : ((Int.floor (r * (maxMs - minMs + 1)) : ℤ) : ℚ) ≤ (z : ℚ) := by
      exact_mod_cast hle
    unfold randomDelay
    rw [← hz] at hleq
    linarith

/-- One loop iteration, factored through the outcome it produces: the store
receives that outcome's write, sentCount grows on success, the skipped list
grows by the skip step, and the held linkage identifier moves by lastUpd. -/
theorem processMessage_eq (participants : List Account) (sendResult : Nat → Option String)
    (i : Nat) (message : Message) (s : LoopState) :
    processMessage participants sendResult i message s
      = ({ store := applyWrite1 s.store message.id
                      (expectedOutcome participants sendResult s.lastMessageId i message),
           sentCount := s.sentCount +
             (if (expectedOutcome participants sendResult s.lastMessageId i message).isSent
              then 1 else 0),
           skipped := skipStep participants s.skipped message,
           lastMessageId := lastUpd s.lastMessageId
             (expectedOutcome participants sendResult s.lastMessageId i message) },
         expectedOutcome participants sendResult s.lastMessageId i message) := by
  cases hf : participants.find? (fun acc => acc.id == message.accountId) with
  | none =>
    simp [processMessage, expectedOutcome, skipStep, senderUnconfigured, pushUnique, hf,
      applyWrite1, lastUpd, SendOutcome.isSent]
  | some acc =>
    cases hc : acc.emailConfig with
    | none =>
      simp [processMessage, expectedOutcome, skipStep, senderUnconfigured, pushUnique, hf,
        hc, applyWrite1, lastUpd, SendOutcome.isSent]
    | some cfg =>
      rcases hrec : participants.filter (fun acc => acc.id != message.accountId) with
          _ | ⟨a, arest⟩
      · simp [processMessage, expectedOutcome, skipStep, senderUnconfigured, pushUnique, hf,
          hc, hrec, applyWrite1, lastUpd, SendOutcome.isSent]
      · cases hs : sendResult i with
        | none =>
          simp [processMessage, expectedOutcome, skipStep, senderUnconfigured, pushUnique,
            hf, hc, hrec, hs, applyWrite1, lastUpd, SendOutcome.isSent]
        | some mid =>
          simp [processMessage, expectedOutcome, skipStep, senderUnconfigured, pushUnique,
            hf, hc, hrec, hs, applyWrite1, lastUpd, SendOutcome.isSent]

/-- The loop produces one outcome per message. -/
theorem sendLoop_log_length (participants : List Account) (sendResult : Nat → Option String) :
    ∀ (msgs : List Message) (i : Nat) (s : LoopState),
      ((sendLoop participants sendResult i msgs s).2).length = msgs.length := by
  intro msgs
  induction msgs with
  | nil => intro i s; rfl
  | cons m rest ih => intro i s; simp [sendLoop, ih]

/-- Pushing an outcome in front of the log shifts the held-identifier trace. -/
theorem prevAt_cons (init : Option String) (o : SendOutcome) (os : List SendOutcome) :
    ∀ k : Nat, prevAt init (o :: os) (k + 1) = prevAt (lastUpd init o) os k := by
  intro k
  induction k with
  | zero => rfl
  | succ k ih =>
    have h1 : prevAt init (o :: os) (k + 1 + 1)
        = lastUpd (prevAt init (o :: os) (k + 1)) ((o :: os).getD (k + 1) noOutcome) := rfl
    rw [h1, ih]
    rfl

/-- Outcome k of the loop started at index i in state s is the expected outcome
for message k, fed with the linkage identifier held when the loop reaches k. -/
theorem sendLoop_log_getD (participants : List Account) (sendResult : Nat → Option String) :
    ∀ (msgs : List Message) (i : Nat) (s : LoopState) (k : Nat), k < msgs.length →
      ((sendLoop participants sendResult i msgs s).2).getD k noOutcome
        = expectedOutcome participants sendResult
            (prevAt s.lastMessageId ((sendLoop participants sendResult i msgs s).2) k)
            (i + k) (msgs.getD k noMessage) := by
  intro msgs
  induction msgs with
  | nil => intro i s k hk; simp at hk
  | cons m rest ih =>
    intro i s k hk
    cases k with
    | zero =>
      simp [sendLoop, processMessage_eq, prevAt]
    | succ k =>
      have hk2 : k < rest.length := by simpa using Nat.lt_of_succ_lt_succ hk
      have hstep := ih (i + 1)
        (processMessage participants sendResult i m s).1 k hk2
      have hidx : i + (k + 1) = i + 1 + k := by omega
      simp only [sendLoop, List.getD_cons_succ, hidx]
      rw [hstep]
      have hlast : (processMessage participants sendResult i m s).1.lastMessageId
          = lastUpd s.lastMessageId (processMessage participants sendResult i m s).2 := by
        rw [processMessage_eq]
      rw [hlast, ← prevAt_cons]

/-- Final sentCount: the initial counter plus the number of successful sends in
the produced log. -/
theorem sendLoop_sentCount (participants : List Account) (sendResult : Nat → Option String) :
    ∀ (msgs : List Message) (i : Nat) (s : LoopState),
      (sendLoop participants sendResult i msgs s).1.sentCount
        = s.sentCount
            + ((sendLoop participants sendResult i msgs s).2).countP (fun o => o.isSent) := by
  intro msgs
  induction msgs with
  | nil => intro i s; simp [sendLoop]
  | cons m rest ih =>
    intro i s
    have hstep := ih (i + 1) (processMessage participants sendResult i m s).1
    simp only [sendLoop, List.countP_cons]
    rw [hstep, processMessage_eq]
    by_cases h : (expectedOutcome participants sendResult s.lastMessageId i m).isSent
    · simp [h]
      omega
    · simp [h]

/-- Final skipped list: the skip-name fold of the processed messages. -/
theorem sendLoop_skipped (participants : List Account) (sendResult : Nat → Option String) :
    ∀ (msgs : List Message) (i : Nat) (s : LoopState),
      (sendLoop participants sendResult i msgs s).1.skipped
        = skipFold participants s.skipped msgs := by
  intro msgs
  induction msgs with
  | nil => intro i s; rfl
  | cons m rest ih =>
    intro i s
    have hstep := ih (i + 1) (processMessage participants sendResult i m s).1
    simp only [sendLoop]
    rw [hstep, processMessage_eq]
    rfl

/-- Final store: the initial store with all the batch's writes applied in loop
order. -/
theorem sendLoop_store (participants : List Account) (sendResult : Nat → Option String) :
    ∀ (msgs : List Message) (i : Nat) (s : LoopState),
      (sendLoop participants sendResult i msgs s).1.store
        = applyWrites s.store (msgs.zip (sendLoop participants sendResult i msgs s).2) := by
  intro msgs
  induction msgs with
  | nil => intro i s; rfl
  | cons m rest ih =>
    intro i s
    have hstep := ih (i + 1) (processMessage participants sendResult i m s).1
    simp only [sendLoop, List.zip_cons_cons, applyWrites]
    rw [hstep, processMessage_eq]
    rfl

/-- The success write preserves the list length. -/
theorem markSent_length (msgs : List Message) (targetId mid : String) :
    (markSent msgs targetId mid).length = msgs.length := by
  simp [markSent]

/-- The failure write preserves the list length. -/
theorem markFailed_length (msgs : List Message) (targetId : String) :
    (markFailed msgs targetId).length = msgs.length := by
  simp [markFailed]

/-- Pointwise description of the success write. -/
theorem markSent_getD (msgs : List Message) (targetId mid : String) (k : Nat)
    (hk : k < msgs.length) :
    (markSent msgs targetId mid).getD k noMessage
      = if (msgs.getD k noMessage).id = targetId then
          { msgs.getD k noMessage with
            sent := some true, scheduledSendTime := none, emailMessageId := some mid }
        else msgs.getD k noMessage := by
  have hk2 : k < (markSent msgs targetId mid).length := by
    rw [markSent_length]; exact hk
  rw [List.getD_eq_getElem _ _ hk2, List.getD_eq_getElem _ _ hk]
  simp [markSent]

/-- Pointwise description of the failure write. -/
theorem markFailed_getD (msgs : List Message) (targetId : String) (k : Nat)
    (hk : k < msgs.length) :
    (markFailed msgs targetId).getD k noMessage
      = if (msgs.getD k noMessage).id = targetId then
          { msgs.getD k noMessage with scheduledSendTime := none }
        else msgs.getD k noMessage := by
  have hk2 : k < (markFailed msgs targetId).length := by
    rw [markFailed_length]; exact hk
  rw [List.getD_eq_getElem _ _ hk2, List.getD_eq_getElem _ _ hk]
  simp [markFailed]

/-- The store-level write of one outcome preserves the list length. -/
theorem applyWrite1_length (store : List Message) (targetId : String) (o : SendOutcome) :
    (applyWrite1 store targetId o).length = store.length := by
  cases o <;> simp [applyWrite1, markSent_length, markFailed_length]

/-- The store-level write of one outcome, viewed at one list position. -/
theorem applyWrite1_getD (store : List Message) (targetId : String) (o : SendOutcome)
    (k : Nat) (hk : k < store.length) :
    (applyWrite1 store targetId o).getD k noMessage
      = pointwiseWrite (store.getD k noMessage) targetId o := by
  cases o with
  | sentOk p mid =>
    rw [applyWrite1, markSent_getD store targetId mid k hk]
    rfl
  | sendFailed p =>
    rw [applyWrite1, markFailed_getD store targetId k hk]
    rfl
  | skippedNoConfig n =>
    simp [applyWrite1, pointwiseWrite, applyWrite]
  | skippedNoRecipients =>
    simp [applyWrite1, pointwiseWrite, applyWrite]

/-- Applying all writes of a batch preserves the list length. -/
theorem applyWrites_length :
    ∀ (pairs : List (Message × SendOutcome)) (store : List Message),
      (applyWrites store pairs).length = store.length := by
  intro pairs
  induction pairs with
  | nil => intro store; rfl
  | cons pr rest ih =>
    intro store
    rcases pr with ⟨m, o⟩
    rw [applyWrites, ih, applyWrite1_length]

/-- All the writes of a batch, viewed at one list position. -/
theorem applyWrites_getD :
    ∀ (pairs : List (Message × SendOutcome)) (store : List Message) (k : Nat),
      k < store.length →
      (applyWrites store pairs).getD k noMessage
        = writeFold (store.getD k noMessage) pairs := by
  intro pairs
  induction pairs with
  | nil => intro store k hk; rfl
  | cons pr rest ih =>
    intro store k hk
    rcases pr with ⟨m, o⟩
    have hk2 : k < (applyWrite1 store m.id o).length := by
      rw [applyWrite1_length]; exact hk
    rw [applyWrites, ih _ k hk2, applyWrite1_getD store m.id o k hk]
    rfl

/-- The per-message transform never changes the message id. -/
theorem applyWrite_id (m : Message) (o : SendOutcome) : (applyWrite m o).id = m.id := by
  cases o <;> rfl

/-- The pointwise write never changes the message id. -/
theorem pointwiseWrite_id (m : Message) (targetId : String) (o : SendOutcome) :
    (pointwiseWrite m targetId o).id = m.id := by
  unfold pointwiseWrite
  by_cases h : m.id = targetId <;> simp [h, applyWrite_id]

/-- A message whose id is targeted by none of the writes is left untouched. -/
theorem writeFold_of_not_mem :
    ∀ (pairs : List (Message × SendOutcome)) (m : Message),
      m.id ∉ pairs.map (fun pr => pr.1.id) → writeFold m pairs = m := by
  intro pairs
  induction pairs with
  | nil => intro m _; rfl
  | cons pr rest ih =>
    intro m hm
    rcases pr with ⟨t, o⟩
    simp only [List.map_cons, List.mem_cons] at hm
    push_neg at hm
    rw [writeFold]
    have hpt : pointwiseWrite m t.id o = m := by
      unfold pointwiseWrite
      rw [if_neg hm.1]
    rw [hpt]
    exact ih m hm.2

/-- With pairwise-distinct targeted ids, the pointwise fold reduces to the one
write whose target the message is. -/
theorem writeFold_unique :
    ∀ (pairs : List (Message × SendOutcome)) (k : Nat) (m : Message),
      k < pairs.length →
      m.id = ((pairs.getD k (noMessage, noOutcome)).1).id →
      (pairs.map (fun pr => pr.1.id)).Nodup →
      writeFold m pairs = applyWrite m (pairs.getD k (noMessage, noOutcome)).2 := by
  intro pairs
  induction pairs with
  | nil => intro k m hk; simp at hk
  | cons pr rest ih =>
    intro k m hk hid hnd
    rcases pr with ⟨t, o⟩
    simp only [List.map_cons, List.nodup_cons] at hnd
    cases k with
    | zero =>
      simp only [List.getD_cons_zero] at hid ⊢
      rw [writeFold]
      have hpt : pointwiseWrite m t.id o = applyWrite m o := by
        unfold pointwiseWrite
        rw [if_pos hid]
      rw [hpt]
      apply writeFold_of_not_mem
      rw [applyWrite_id, hid]
      exact hnd.1
    | succ k =>
      have hk2 : k < rest.length := by simpa using Nat.lt_of_succ_lt_succ hk
      simp only [List.getD_cons_succ] at hid ⊢
      have hmem : ((rest.getD k (noMessage, noOutcome)).1).id
          ∈ rest.map (fun pr => pr.1.id) := by
        have h1 : rest.getD k (noMessage, noOutcome) ∈ rest := by
          rw [List.getD_eq_getElem _ _ hk2]
          exact List.getElem_mem hk2
        exact List.mem_map_of_mem _ h1
      have hne : m.id ≠ t.id := by
        rw [hid]
        intro hcontra
        exact hnd.1 (by rw [← hcontra]; exact hmem)
      rw [writeFold]
      have hpt : pointwiseWrite m t.id o = m := by
        unfold pointwiseWrite
        rw [if_neg hne]
      rw [hpt]
      exact ih k m hk2 hid hnd.2

/-- Assigning a scheduled time changes neither the skip decision nor the name
recorded for it. -/
theorem skipStep_sst (participants : List Account) (acc : List String) (m : Message)
    (t : Option ℚ) :
    skipStep participants acc { m with scheduledSendTime := t } = skipStep participants acc m :=
  rfl

/-- Unfolding the skip-name fold over a cons cell. -/
theorem skipFold_cons (participants : List Account) (init : List String) (m : Message)
    (rest : List Message) :
    skipFold participants init (m :: rest)
      = skipFold participants (skipStep participants init m) rest := rfl

/-- The skip-name fold over the scheduled list equals the fold over the
original messages. -/
theorem skipFold_scheduleGo (participants : List Account) (minMs maxMs : ℚ)
    (clock rand : Nat → ℚ) :
    ∀ (msgs : List Message) (i : Nat) (cum : ℚ) (init : List String),
      skipFold participants init (scheduleGo minMs maxMs clock rand i cum msgs)
        = skipFold participants init msgs := by
  intro msgs
  induction msgs with
  | nil => intro i cum init; rfl
  | cons m rest ih =>
    intro i cum init
    by_cases h : i = 0
    · have h1 : scheduleGo minMs maxMs clock rand i cum (m :: rest)
          = { m with scheduledSendTime := some (clock i) } ::
              scheduleGo minMs maxMs clock rand (i + 1) cum rest := by
        simp [scheduleGo, h]
      rw [h1, skipFold_cons, skipStep_sst, skipFold_cons]
      exact ih (i + 1) cum _
    · have h1 : scheduleGo minMs maxMs clock rand i cum (m :: rest)
          = { m with
              scheduledSendTime := some (clock i + (cum + randomDelay minMs maxMs (rand i))) } ::
            scheduleGo minMs maxMs clock rand (i + 1)
              (cum + randomDelay minMs maxMs (rand i)) rest := by
        simp [scheduleGo, h]
      rw [h1, skipFold_cons, skipStep_sst, skipFold_cons]
      exact ih (i + 1) _ _

/-- Membership in a skip accumulator survives the rest of the fold. -/
theorem skipFold_mem_mono (participants : List Account) :
    ∀ (msgs : List Message) (init : List String) (x : String),
      x ∈ init → x ∈ skipFold participants init msgs := by
  intro msgs
  induction msgs with
  | nil => intro init x hx; exact hx
  | cons m rest ih =>
    intro init x hx
    apply ih
    unfold skipStep pushUnique
    by_cases h1 : senderUnconfigured participants m
    · by_cases h2 : m.accountName ∈ init
      · simp [h1, h2, hx]
      · simp [h1, h2, hx]
    · simp [h1, hx]

/-- Every unconfigured message's account name ends up in the skip fold. -/
theorem skipFold_mem (participants : List Account) :
    ∀ (msgs : List Message) (init : List String) (m : Message),
      m ∈ msgs → senderUnconfigured participants m = true →
      m.accountName ∈ skipFold participants init msgs := by
  intro msgs
  induction msgs with
  | nil => intro init m hm; simp at hm
  | cons m0 rest ih =>
    intro init m hm hu
    rcases List.mem_cons.mp hm with h | h
    · subst h
      rw [skipFold_cons]
      apply skipFold_mem_mono
      by_cases h2 : m.accountName ∈ init
      · simp [skipStep, pushUnique, hu, h2]
      · simp [skipStep, pushUnique, hu, h2]
    · exact ih (skipStep participants init m0) m h hu

/-- The deduplicating push keeps the accumulator duplicate-free. -/
theorem pushUnique_nodup (l : List String) (n : String) (hl : l.Nodup) :
    (pushUnique l n).Nodup := by
  unfold pushUnique
  by_cases h : n ∈ l
  · simp [h, hl]
  · simp [h, List.nodup_append, hl]

/-- The skip fold keeps the accumulator duplicate-free. -/
theorem skipFold_nodup (participants : List Account) :
    ∀ (msgs : List Message) (init : List String), init.Nodup →
      (skipFold participants init msgs).Nodup := by
  intro msgs
  induction msgs with
  | nil => intro init h; exact h
  | cons m rest ih =>
    intro init h
    apply ih
    unfold skipStep
    by_cases h1 : senderUnconfigured participants m <;>
      simp [h1, pushUnique_nodup, h]

/-- Everything else keeps the held linkage identifier. -/
theorem lastUpd_not_sent (held : Option String) (o : SendOutcome)
    (h : o.isSent = false) : lastUpd held o = held := by
  cases o <;> simp [SendOutcome.isSent] at h ⊢ <;> rfl

/-- The identifier held at position j is the id returned by the last successful
send before j: concretely, if position i succeeded and no position between i
and j did, position j sees exactly the id of position i. -/
theorem prevAt_last_success (log : List SendOutcome) (init : Option String) (i : Nat) :
    ∀ j : Nat, i < j → j ≤ log.length →
      (log.getD i noOutcome).isSent = true →
      (∀ k, i < k → k < j → (log.getD k noOutcome).isSent = false) →
      prevAt init log j = (log.getD i noOutcome).sentId := by
  intro j
  induction j with
  | zero => intro h; omega
  | succ j ih =>
    intro hij hj hi hbetween
    rcases Nat.lt_succ_iff_lt_or_eq.mp hij with h | h
    · have hstep : prevAt init log (j + 1)
          = lastUpd (prevAt init log j) (log.getD j noOutcome) := rfl
      rw [hstep, lastUpd_not_sent _ _ (hbetween j h (Nat.lt_succ_self j))]
      exact ih h (Nat.le_of_succ_le hj) hi
        (fun k hk1 hk2 => hbetween k hk1 (Nat.lt_succ_of_lt hk2))
    · subst h
      have hstep : prevAt init log (i + 1)
          = lastUpd (prevAt init log i) (log.getD i noOutcome) := rfl
      rw [hstep]
      cases ho : log.getD i noOutcome with
      | sentOk p mid => rfl
      | skippedNoConfig n => rw [ho] at hi; simp [SendOutcome.isSent] at hi
      | skippedNoRecipients => rw [ho] at hi; simp [SendOutcome.isSent] at hi
      | sendFailed p => rw [ho] at hi; simp [SendOutcome.isSent] at hi

/-- The outcome is insensitive to the scheduled-time field of the message. -/
theorem expectedOutcome_sst (participants : List Account)
    (sendResult : Nat → Option String) (prev : Option String) (i : Nat) (m : Message)
    (t : Option ℚ) :
    expectedOutcome participants sendResult prev i { m with scheduledSendTime := t }
      = expectedOutcome participants sendResult prev i m := rfl

/-- An unconfigured sender always produces the skip outcome carrying the
message's account name. -/
theorem expectedOutcome_of_unconfigured (participants : List Account)
    (sendResult : Nat → Option String) (prev : Option String) (i : Nat) (m : Message)
    (h : senderUnconfigured participants m = true) :
    expectedOutcome participants sendResult prev i m
      = .skippedNoConfig m.accountName := by
  cases hf : participants.find? (fun acc => acc.id == m.accountId) with
  | none => simp [expectedOutcome, hf]
  | some acc =>
    simp [senderUnconfigured, hf] at h
    simp [expectedOutcome, hf, h]

/-- A dispatch call is made exactly when the sender is configured and the
recipient list is nonempty. -/
theorem expectedOutcome_isDispatch (participants : List Account)
    (sendResult : Nat → Option String) (prev : Option String) (i : Nat) (m : Message) :
    (expectedOutcome participants sendResult prev i m).isDispatch
      = wouldDispatch participants m := by
  cases hf : participants.find? (fun acc => acc.id == m.accountId) with
  | none =>
    simp [expectedOutcome, wouldDispatch, senderUnconfigured, hf, SendOutcome.isDispatch]
  | some acc =>
    cases hc : acc.emailConfig with
    | none =>
      simp [expectedOutcome, wouldDispatch, senderUnconfigured, hf, hc,
        SendOutcome.isDispatch]
    | some cfg =>
      rcases hrec : participants.filter (fun acc => acc.id != m.accountId) with
          _ | ⟨a, arest⟩
      · simp [expectedOutcome, wouldDispatch, senderUnconfigured, hf, hc, hrec,
          SendOutcome.isDispatch]
      · cases hs : sendResult i with
        | none =>
          simp [expectedOutcome, wouldDispatch, senderUnconfigured, hf, hc, hrec, hs,
            SendOutcome.isDispatch]
        | some mid =>
          simp [expectedOutcome, wouldDispatch, senderUnconfigured, hf, hc, hrec, hs,
            SendOutcome.isDispatch]

/-- A dispatched outcome carries as previousMessageId exactly the identifier it
was fed with. -/
theorem expectedOutcome_prevId (participants : List Account)
    (sendResult : Nat → Option String) (prev : Option String) (i : Nat) (m : Message)
    (h : (expectedOutcome participants sendResult prev i m).isDispatch = true) :
    (expectedOutcome participants sendResult prev i m).prevId = prev := by
  cases hf : participants.find? (fun acc => acc.id == m.accountId) with
  | none => simp [expectedOutcome, hf, SendOutcome.isDispatch] at h
  | some acc =>
    cases hc : acc.emailConfig with
    | none => simp [expectedOutcome, hf, hc, SendOutcome.isDispatch] at h
    | some cfg =>
      rcases hrec : participants.filter (fun acc => acc.id != m.accountId) with
          _ | ⟨a, arest⟩
      · simp [expectedOutcome, hf, hc, hrec, SendOutcome.isDispatch] at h
      · cases hs : sendResult i with
        | none => simp [expectedOutcome, hf, hc, hrec, hs, SendOutcome.prevId]
        | some mid => simp [expectedOutcome, hf, hc, hrec, hs, SendOutcome.prevId]

/-- A configured sender with recipients and a successful transport call yields
the success outcome with the returned id. -/
theorem expectedOutcome_of_success (participants : List Account)
    (sendResult : Nat → Option String) (prev : Option String) (i : Nat) (m : Message)
    (mid : String)
    (hconf : senderUnconfigured participants m = false)
    (hrec : (participants.filter (fun acc => acc.id != m.accountId)).isEmpty = false)
    (hs : sendResult i = some mid) :
    expectedOutcome participants sendResult prev i m = .sentOk prev mid := by
  cases hf : participants.find? (fun acc => acc.id == m.accountId) with
  | none => simp [senderUnconfigured, hf] at hconf
  | some acc =>
    cases hc : acc.emailConfig with
    | none => simp [senderUnconfigured, hf, hc] at hconf
    | some cfg =>
      rcases hrec2 : participants.filter (fun acc => acc.id != m.accountId) with
          _ | ⟨a, arest⟩
      · rw [hrec2] at hrec; simp at hrec
      · simp [expectedOutcome, hf, hc, hrec2, hs]

/-- A log with a non-sent entry has strictly fewer successes than entries. -/
theorem countP_isSent_lt (log : List SendOutcome) (k : Nat) (hk : k < log.length)
    (h : (log.getD k noOutcome).isSent = false) :
    log.countP (fun o => o.isSent) < log.length := by
  rcases Nat.lt_or_ge (log.countP (fun o => o.isSent)) log.length with hlt | hge
  · exact hlt
  · exfalso
    have hle : log.countP (fun o => o.isSent) ≤ log.length := List.countP_le_length _
    have heq : log.countP (fun o => o.isSent) = log.length := le_antisymm hle hge
    have hall := List.countP_eq_length.mp heq
    have hmem : log.getD k noOutcome ∈ log := by
      rw [List.getD_eq_getElem _ _ hk]
      exact List.getElem_mem hk
    have := hall _ hmem
    rw [h] at this
    exact Bool.false_ne_true this

/-- The skip decision is insensitive to the scheduled-time field. -/
theorem senderUnconfigured_sst (participants : List Account) (m : Message) (t : Option ℚ) :
    senderUnconfigured participants { m with scheduledSendTime := t }
      = senderUnconfigured participants m := rfl

/-- The dispatch decision is insensitive to the scheduled-time field. -/
theorem wouldDispatch_sst (participants : List Account) (m : Message) (t : Option ℚ) :
    wouldDispatch participants { m with scheduledSendTime := t }
      = wouldDispatch participants m := rfl

/-- A successful handleSendAllMessages call is exactly a batch run on a
nonempty message list. -/
theorem handleSendAllMessages_some (conv : Conversation) (clock rand : Nat → ℚ)
    (sendResult : Nat → Option String) (b : BatchRun)
    (hb : handleSendAllMessages conv clock rand sendResult = some b) :
    b = runBatch conv clock rand sendResult ∧ conv.messages.length ≠ 0 := by
  unfold handleSendAllMessages at hb
  by_cases h : conv.messages.length = 0
  · rw [if_pos h] at hb
    exact absurd hb (by simp)
  · rw [if_neg h] at hb
    exact ⟨(Option.some.inj hb).symm, h⟩

/-- The batch log has one entry per original message. -/
theorem runBatch_log_length (conv : Conversation) (clock rand : Nat → ℚ)
    (sendResult : Nat → Option String) :
    (runBatch conv clock rand sendResult).log.length = conv.messages.length := by
  simp only [runBatch]
  rw [sendLoop_log_length, scheduleMessages_length]

/-- The batch keeps the scheduled list it wrote back. -/
theorem runBatch_scheduled (conv : Conversation) (clock rand : Nat → ℚ)
    (sendResult : Nat → Option String) :
    (runBatch conv clock rand sendResult).scheduled = scheduleMessages conv clock rand := rfl

/-- The batch reports the original message count as its total. -/
theorem runBatch_totalCount (conv : Conversation) (clock rand : Nat → ℚ)
    (sendResult : Nat → Option String) :
    (runBatch conv clock rand sendResult).totalCount = conv.messages.length := rfl

/-- Entry k of the batch log is the expected outcome of original message k
under the identifier held at step k. -/
theorem runBatch_log_getD (conv : Conversation) (clock rand : Nat → ℚ)
    (sendResult : Nat → Option String) (k : Nat) (hk : k < conv.messages.length) :
    (runBatch conv clock rand sendResult).log.getD k noOutcome
      = expectedOutcome (batchParticipants conv) sendResult
          (prevAt none (runBatch conv clock rand sendResult).log k) k
          (conv.messages.getD k noMessage) := by
  have hk2 : k < (scheduleMessages conv clock rand).length := by
    rw [scheduleMessages_length]; exact hk
  simp only [runBatch]
  rw [sendLoop_log_getD _ _ _ _ _ k hk2]
  rw [scheduleMessages_getD conv clock rand k hk, expectedOutcome_sst]
  simp

/-- The batch's sentCount is the number of successful entries of its log. -/
theorem runBatch_sentCount (conv : Conversation) (clock rand : Nat → ℚ)
    (sendResult : Nat → Option String) :
    (runBatch conv clock rand sendResult).sentCount
      = (runBatch conv clock rand sendResult).log.countP (fun o => o.isSent) := by
  simp only [runBatch]
  rw [sendLoop_sentCount]
  simp

/-- The batch's skipped names are the skip fold of the original messages. -/
theorem runBatch_skipped (conv : Conversation) (clock rand : Nat → ℚ)
    (sendResult : Nat → Option String) :
    (runBatch conv clock rand sendResult).skippedAccountNames
      = skipFold (batchParticipants conv) [] conv.messages := by
  simp only [runBatch]
  rw [sendLoop_skipped, scheduleMessages]
  rw [skipFold_scheduleGo]

/-- With pairwise-distinct message ids, final message k is scheduled message k
transformed by exactly its own outcome. -/
theorem runBatch_final_getD (conv : Conversation) (clock rand : Nat → ℚ)
    (sendResult : Nat → Option String)
    (hids : (conv.messages.map Message.id).Nodup) (k : Nat)
    (hk : k < conv.messages.length) :
    (runBatch conv clock rand sendResult).finalMessages.getD k noMessage
      = applyWrite ((runBatch conv clock rand sendResult).scheduled.getD k noMessage)
          ((runBatch conv clock rand sendResult).log.getD k noOutcome) := by
  have hs : k < (scheduleMessages conv clock rand).length := by
    rw [scheduleMessages_length]; exact hk
  have hlog : ((runBatch conv clock rand sendResult).log).length
      = (scheduleMessages conv clock rand).length := by
    rw [runBatch_log_length, scheduleMessages_length]
  have hzlen : ((scheduleMessages conv clock rand).zip
      (runBatch conv clock rand sendResult).log).length
      = (scheduleMessages conv clock rand).length := by
    rw [List.length_zip, hlog, min_self]
  have hkz : k < ((scheduleMessages conv clock rand).zip
      (runBatch conv clock rand sendResult).log).length := by
    rw [hzlen]; exact hs
  have hklog : k < ((runBatch conv clock rand sendResult).log).length := by
    rw [hlog]; exact hs
  have hpair : ((scheduleMessages conv clock rand).zip
        (runBatch conv clock rand sendResult).log).getD k (noMessage, noOutcome)
      = ((scheduleMessages conv clock rand).getD k noMessage,
         (runBatch conv clock rand sendResult).log.getD k noOutcome) := by
    rw [List.getD_eq_getElem _ _ hkz, List.getD_eq_getElem _ _ hs,
      List.getD_eq_getElem _ _ hklog]
    exact List.getElem_zip ..
  have hnd : (((scheduleMessages conv clock rand).zip
        (runBatch conv clock rand sendResult).log).map (fun pr => pr.1.id)).Nodup := by
    have hfst : ((scheduleMessages conv clock rand).zip
          (runBatch conv clock rand sendResult).log).map Prod.fst
        = scheduleMessages conv clock rand :=
      List.map_fst_zip _ _ (by rw [hlog])
    have hmm : (((scheduleMessages conv clock rand).zip
          (runBatch conv clock rand sendResult).log).map Prod.fst).map Message.id
        = ((scheduleMessages conv clock rand).zip
            (runBatch conv clock rand sendResult).log).map (fun pr => pr.1.id) := by
      rw [List.map_map]
      rfl
    rw [← hmm, hfst, scheduleMessages_map_id]
    exact hids
  have hfinal : (runBatch conv clock rand sendResult).finalMessages
      = applyWrites (scheduleMessages conv clock rand)
          ((scheduleMessages conv clock rand).zip
            (runBatch conv clock rand sendResult).log) := by
    simp only [runBatch]
    rw [sendLoop_store]
  rw [hfinal, applyWrites_getD _ _ k hs]
  have := writeFold_unique ((scheduleMessages conv clock rand).zip
      (runBatch conv clock rand sendResult).log) k
      ((scheduleMessages conv clock rand).getD k noMessage) hkz
      (by rw [hpair]) hnd
  rw [this, hpair, runBatch_scheduled]

/-- Full characterization of the generation loop: success and abort lengths,
each call's shape (round-robin sender, remaining participants, history =
initial history plus the messages generated so far), and each generated
message's shape. -/
theorem genLoop_spec (participants : List Account) (gen : Nat → Option GenReply)
    (idGen : Nat → String) (tsGen : Nat → ℚ) :
    ∀ (rem i : Nat) (history : List Message) (calls : List GenCall)
      (msgs : List Message) (ok : Bool),
      genLoop participants gen idGen tsGen i rem history = (calls, msgs, ok) →
      (ok = true → calls.length = rem ∧ msgs.length = rem)
      ∧ (ok = false → calls.length = msgs.length + 1 ∧ msgs.length < rem
          ∧ gen (i + msgs.length) = none)
      ∧ (∀ k, k < calls.length →
          calls.getD k noCall = genCallAt participants (i + k) (history ++ msgs.take k))
      ∧ (∀ k, k < msgs.length →
          ∃ rep, gen (i + k) = some rep
            ∧ msgs.getD k noMessage = genMessageAt participants idGen tsGen (i + k) rep) := by
  intro rem
  induction rem with
  | zero =>
    intro i history calls msgs ok heq
    rw [genLoop] at heq
    injection heq with ha hbc
    injection hbc with hb hc
    subst ha
    subst hb
    subst hc
    refine ⟨fun _ => ⟨rfl, rfl⟩, fun hc2 => by simp at hc2, ?_, ?_⟩
    · intro k hk
      simp at hk
    · intro k hk
      simp at hk
  | succ rem ih =>
    intro i history calls msgs ok heq
    cases hg : gen i with
    | none =>
      have heq2 : genLoop participants gen idGen tsGen i (rem + 1) history
          = ([genCallAt participants i history], [], false) := by
        rw [genLoop, hg]
      rw [heq2] at heq
      injection heq with ha hbc
      injection hbc with hb hc
      subst ha
      subst hb
      subst hc
      refine ⟨fun h => by simp at h,
        fun _ => ⟨rfl, Nat.succ_pos rem, by simpa using hg⟩, ?_, ?_⟩
      · intro k hk
        simp only [List.length_cons, List.length_nil, Nat.lt_succ_iff,
          Nat.le_zero] at hk
        subst hk
        simp
      · intro k hk
        simp at hk
    | some reply =>
      have heq2 : genLoop participants gen idGen tsGen i (rem + 1) history
          = (genCallAt participants i history ::
              (genLoop participants gen idGen tsGen (i + 1) rem
                (history ++ [genMessageAt participants idGen tsGen i reply])).1,
             genMessageAt participants idGen tsGen i reply ::
              (genLoop participants gen idGen tsGen (i + 1) rem
                (history ++ [genMessageAt participants idGen tsGen i reply])).2.1,
             (genLoop participants gen idGen tsGen (i + 1) rem
                (history ++ [genMessageAt participants idGen tsGen i reply])).2.2) := by
        rw [genLoop, hg]
      rw [heq2] at heq
      injection heq with ha hbc
      injection hbc with hb hc
      subst ha
      subst hb
      subst hc
      obtain ⟨hok, hfail, hcalls, hmsgs⟩ := ih (i + 1)
        (history ++ [genMessageAt participants idGen tsGen i reply])
        (genLoop participants gen idGen tsGen (i + 1) rem
          (history ++ [genMessageAt participants idGen tsGen i reply])).1
        (genLoop participants gen idGen tsGen (i + 1) rem
          (history ++ [genMessageAt participants idGen tsGen i reply])).2.1
        (genLoop participants gen idGen tsGen (i + 1) rem
          (history ++ [genMessageAt participants idGen tsGen i reply])).2.2
        rfl
      refine ⟨?_, ?_, ?_, ?_⟩
      · intro h
        obtain ⟨h1, h2⟩ := hok h
        simp [h1, h2]
      · intro h
        obtain ⟨h1, h2, h3⟩ := hfail h
        refine ⟨by simp [h1], by simp; omega, ?_⟩
        have hidx : i + ((genMessageAt participants idGen tsGen i reply ::
            (genLoop participants gen idGen tsGen (i + 1) rem
              (history ++ [genMessageAt participants idGen tsGen i reply])).2.1).length)
            = i + 1 + ((genLoop participants gen idGen tsGen (i + 1) rem
              (history ++ [genMessageAt participants idGen tsGen i reply])).2.1).length := by
          simp
          omega
        rw [hidx]
        exact h3
      · intro k hk
        cases k with
        | zero => simp
        | succ k =>
          have hk2 : k < ((genLoop participants gen idGen tsGen (i + 1) rem
              (history ++ [genMessageAt participants idGen tsGen i reply])).1).length := by
            simpa using Nat.lt_of_succ_lt_succ hk
          have hidx : i + (k + 1) = i + 1 + k := by omega
          rw [List.getD_cons_succ, hcalls k hk2, hidx, List.take_succ_cons,
            List.append_assoc]
          rfl
      · intro k hk
        cases k with
        | zero =>
          refine ⟨reply, by simpa using hg, by simp⟩
        | succ k =>
          have hk2 : k < ((genLoop participants gen idGen tsGen (i + 1) rem
              (history ++ [genMessageAt participants idGen tsGen i reply])).2.1).length := by
            simpa using Nat.lt_of_succ_lt_succ hk
          have hidx : i + (k + 1) = i + 1 + k := by omega
          rw [List.getD_cons_succ, hidx]
          exact hmsgs k hk2

/-- A successful outcome is a dispatched outcome. -/
theorem isSent_isDispatch (o : SendOutcome) (h : o.isSent = true) : o.isDispatch = true := by
  cases o with
  | sentOk p mid => rfl
  | skippedNoConfig n => exact absurd h (by simp [SendOutcome.isSent])
  | skippedNoRecipients => exact absurd h (by simp [SendOutcome.isSent])
  | sendFailed p => exact absurd h (by simp [SendOutcome.isSent])

/-- A failed outcome is not a successful one. -/
theorem isFailed_not_isSent (o : SendOutcome) (h : o.isFailed = true) :
    o.isSent = false := by
  cases o with
  | sendFailed p => rfl
  | sentOk p mid => exact absurd h (by simp [SendOutcome.isFailed])
  | skippedNoConfig n => exact absurd h (by simp [SendOutcome.isFailed])
  | skippedNoRecipients => exact absurd h (by simp [SendOutcome.isFailed])

/-- A skip outcome writes nothing back. -/
theorem applyWrite_of_isSkip (m : Message) (o : SendOutcome) (h : o.isSkip = true) :
    applyWrite m o = m := by
  cases o with
  | skippedNoConfig n => rfl
  | skippedNoRecipients => rfl
  | sentOk p mid => exact absurd h (by simp [SendOutcome.isSkip])
  | sendFailed p => exact absurd h (by simp [SendOutcome.isSkip])

/-- Take one more element, written with getD. -/
theorem take_succ_getD {α : Type} (l : List α) (d : α) (k : Nat) (hk : k < l.length) :
    l.take (k + 1) = l.take k ++ [l.getD k d] := by
  rw [List.take_succ, List.getElem?_eq_getElem hk, List.getD_eq_getElem _ _ hk]
  rfl

/-- Indexing the right part of an append, written with getD. -/
theorem getD_append_offset {α : Type} (l1 l2 : List α) (d : α) (k : Nat)
    (hk : k < l2.length) :
    (l1 ++ l2).getD (l1.length + k) d = l2.getD k d := by
  have h1 : l1.length + k < (l1 ++ l2).length := by
    rw [List.length_append]
    omega
  rw [List.getD_eq_getElem _ _ h1, List.getD_eq_getElem _ _ hk]
  rw [List.getElem_append_right (by omega)]
  congr 1
  omega

/-- Every reachable conversation satisfies the delay-ordering invariant. -/
theorem reachable_delay_le : ∀ c : Conversation, ReachableConv c →
    c.minDelayMinutes ≤ c.maxDelayMinutes := by
  intro c h
  induction h with
  | created name idStr => norm_num [mkConversation]
  | editMin c v _ ih =>
    by_cases hv : c.maxDelayMinutes < v
    · simp [setMinDelayMinutes, hv]
    · simp only [setMinDelayMinutes, if_neg hv]
      linarith [not_lt.mp hv]
  | editMax c v _ ih =>
    by_cases hv : c.minDelayMinutes > v
    · simp [setMaxDelayMinutes, hv]
    · simp only [setMaxDelayMinutes, if_neg hv]
      linarith [not_lt.mp hv]
  | migrated c d _ ih =>
    cases d with
    | none => simpa [migrateConversation, migrateDelays] using ih
    | some dv => simp [migrateConversation, migrateDelays]
  | delaysKept c c2 _ h1 h2 ih =>
    rw [h1, h2]
    exact ih

/-- Claim C1: thread-linkage invariant of handleSendAllMessages: for any two
successfully sent messages i < j of one batch with no successful send strictly
between them (skips and failures in between are allowed), the dispatch call of
message j received as its previousMessageId exactly the transport message id
returned by the dispatch of message i; the held linkage identifier is updated
only on a successful send, never on a skip or failure. -/
theorem c1_thread_linkage (conv : Conversation) (clock rand : Nat → ℚ)
    (sendResult : Nat → Option String) (b : BatchRun)
    (hb : handleSendAllMessages conv clock rand sendResult = some b)
    (i j : Nat) (hij : i < j) (hj : j < b.log.length)
    (hi : (b.log.getD i noOutcome).isSent = true)
    (hjs : (b.log.getD j noOutcome).isSent = true)
    (hbetween : ∀ k, k < j → i < k → (b.log.getD k noOutcome).isSent = false) :
    (b.log.getD j noOutcome).prevId = (b.log.getD i noOutcome).sentId := by
  obtain ⟨hbr, hne⟩ := handleSendAllMessages_some conv clock rand sendResult b hb
  subst hbr
  have hlen := runBatch_log_length conv clock rand sendResult
  have hjm : j < conv.messages.length := by rw [← hlen]; exact hj
  have hchar := runBatch_log_getD conv clock rand sendResult j hjm
  have hdisp : (expectedOutcome (batchParticipants conv) sendResult
      (prevAt none (runBatch conv clock rand sendResult).log j) j
      (conv.messages.getD j noMessage)).isDispatch = true := by
    rw [← hchar]
    exact isSent_isDispatch _ hjs
  have hprev : prevAt none (runBatch conv clock rand sendResult).log j
      = ((runBatch conv clock rand sendResult).log.getD i noOutcome).sentId :=
    prevAt_last_success _ none i j hij (le_of_lt hj) hi
      (fun k h1 h2 => hbetween k h2 h1)
  rw [hchar, expectedOutcome_prevId _ _ _ _ _ hdisp, hprev]

/-- Witness for C1: in the concrete three-message batch whose second dispatch
throws, the third dispatch call carries exactly the transport id returned by
the first. -/
theorem c1_thread_linkage_witness :
    (handleSendAllMessages w1conv constClock zeroRand w1send = some w1batch
      ∧ (0 : Nat) < 2 ∧ 2 < w1batch.log.length
      ∧ (w1batch.log.getD 0 noOutcome).isSent = true
      ∧ (w1batch.log.getD 2 noOutcome).isSent = true
      ∧ (∀ k, k < 2 → 0 < k → (w1batch.log.getD k noOutcome).isSent = false))
    ∧ (w1batch.log.getD 2 noOutcome).prevId = (w1batch.log.getD 0 noOutcome).sentId :=
  ⟨⟨rfl, by decide, by decide, by decide, by decide, by decide⟩,
    c1_thread_linkage w1conv constClock zeroRand w1send w1batch rfl 0 2 (by decide)
      (by decide) (by decide) (by decide) (by decide)⟩

/-- Claim C2: schedule assignment of handleSendAllMessages: with the clock
frozen at the batch-start instant t0, Math.random draws in [0, 1), nonnegative
ordered delay bounds spanning an integer millisecond width, message 0 is
scheduled at t0, message i at t0 plus the cumulative drawn delay, and the
schedule is monotone with consecutive differences inside the closed range
[minDelayMinutes*60000, maxDelayMinutes*60000]. -/
theorem c2_schedule_assignment (conv : Conversation) (clock rand : Nat → ℚ) (t0 : ℚ)
    (hclock : ∀ i, clock i = t0)
    (hrand : ∀ i, 0 ≤ rand i ∧ rand i < 1)
    (hmin0 : 0 ≤ conv.minDelayMinutes)
    (hmm : conv.minDelayMinutes ≤ conv.maxDelayMinutes)
    (hwidth : ∃ z : ℤ, maxDelayMs conv - minDelayMs conv = (z : ℚ))
    (hlen : 0 < conv.messages.length) :
    ((scheduleMessages conv clock rand).getD 0 noMessage).scheduledSendTime = some t0
    ∧ (∀ i, i < conv.messages.length →
        ((scheduleMessages conv clock rand).getD i noMessage).scheduledSendTime
          = some (t0 + cumDelay (minDelayMs conv) (maxDelayMs conv) rand i))
    ∧ (∀ i, i + 1 < conv.messages.length →
        schedTime conv clock rand i ≤ schedTime conv clock rand (i + 1)
        ∧ minDelayMs conv ≤ schedTime conv clock rand (i + 1) - schedTime conv clock rand i
        ∧ schedTime conv clock rand (i + 1) - schedTime conv clock rand i
            ≤ maxDelayMs conv) := by
  obtain ⟨z, hz⟩ := hwidth
  have hms0 : 0 ≤ minDelayMs conv := by
    unfold minDelayMs
    nlinarith
  have hmsle : minDelayMs conv ≤ maxDelayMs conv := by
    unfold minDelayMs maxDelayMs
    nlinarith
  have hdel : ∀ i, minDelayMs conv
        ≤ randomDelay (minDelayMs conv) (maxDelayMs conv) (rand i)
      ∧ randomDelay (minDelayMs conv) (maxDelayMs conv) (rand i) ≤ maxDelayMs conv :=
    fun i => randomDelay_bounds _ _ _ z hz (hrand i).1 (hrand i).2 hmsle
  have hchar : ∀ i, i < conv.messages.length →
      ((scheduleMessages conv clock rand).getD i noMessage).scheduledSendTime
        = some (t0 + cumDelay (minDelayMs conv) (maxDelayMs conv) rand i) := by
    intro i hi
    rw [scheduleMessages_getD conv clock rand i hi, hclock i]
  have hst : ∀ i, i < conv.messages.length →
      schedTime conv clock rand i
        = t0 + cumDelay (minDelayMs conv) (maxDelayMs conv) rand i := by
    intro i hi
    unfold schedTime
    rw [hchar i hi]
    rfl
  refine ⟨?_, hchar, ?_⟩
  · rw [hchar 0 hlen]
    simp [cumDelay]
  · intro i hi
    have h1 := hst i (by omega)
    have h2 := hst (i + 1) hi
    have hcum : cumDelay (minDelayMs conv) (maxDelayMs conv) rand (i + 1)
        = cumDelay (minDelayMs conv) (maxDelayMs conv) rand i
          + randomDelay (minDelayMs conv) (maxDelayMs conv) (rand (i + 1)) := rfl
    have hd := hdel (i + 1)
    constructor
    · rw [h1, h2, hcum]
      linarith [hd.1]
    constructor
    · rw [h1, h2, hcum]
      linarith [hd.1]
    · rw [h1, h2, hcum]
      linarith [hd.2]

/-- Witness for C2: the degenerate minDelayMinutes = maxDelayMinutes = 1 batch
with three messages from Alice, Bob, Alice is scheduled exactly at t0,
t0 + 60000 ms and t0 + 120000 ms. -/
theorem c2_schedule_assignment_witness :
    ((∀ i : Nat, constClock i = 0)
      ∧ (∀ i, 0 ≤ zeroRand i ∧ zeroRand i < 1)
      ∧ 0 ≤ w2conv.minDelayMinutes
      ∧ w2conv.minDelayMinutes ≤ w2conv.maxDelayMinutes
      ∧ (∃ z : ℤ, maxDelayMs w2conv - minDelayMs w2conv = (z : ℚ))
      ∧ 0 < w2conv.messages.length)
    ∧ (((scheduleMessages w2conv constClock zeroRand).getD 0 noMessage).scheduledSendTime
          = some 0
        ∧ (∀ i, i < w2conv.messages.length →
            ((scheduleMessages w2conv constClock zeroRand).getD i
                noMessage).scheduledSendTime
              = some (0 + cumDelay (minDelayMs w2conv) (maxDelayMs w2conv) zeroRand i))
        ∧ (∀ i, i + 1 < w2conv.messages.length →
            schedTime w2conv constClock zeroRand i
                ≤ schedTime w2conv constClock zeroRand (i + 1)
            ∧ minDelayMs w2conv
                ≤ schedTime w2conv constClock zeroRand (i + 1)
                  - schedTime w2conv constClock zeroRand i
            ∧ schedTime w2conv constClock zeroRand (i + 1)
                  - schedTime w2conv constClock zeroRand i ≤ maxDelayMs w2conv))
    ∧ schedTime w2conv constClock zeroRand 0 = 0
    ∧ schedTime w2conv constClock zeroRand 1 = 60000
    ∧ schedTime w2conv constClock zeroRand 2 = 120000 := by
  refine ⟨⟨fun i => rfl, fun i => ⟨le_refl 0, by norm_num [zeroRand]⟩,
      by norm_num [w2conv], by norm_num [w2conv],
      ⟨0, by norm_num [minDelayMs, maxDelayMs, w2conv]⟩, by decide⟩,
    c2_schedule_assignment w2conv constClock zeroRand 0 (fun i => rfl)
      (fun i => ⟨le_refl 0, by norm_num [zeroRand]⟩) (by norm_num [w2conv])
      (by norm_num [w2conv]) ⟨0, by norm_num [minDelayMs, maxDelayMs, w2conv]⟩
      (by decide), ?_, ?_, ?_⟩
  · norm_num [schedTime, scheduleMessages, scheduleGo, w2conv, minDelayMs, maxDelayMs,
      randomDelay, cumDelay, constClock, zeroRand, msgBy]
  · norm_num [schedTime, scheduleMessages, scheduleGo, w2conv, minDelayMs, maxDelayMs,
      randomDelay, cumDelay, constClock, zeroRand, msgBy]
  · norm_num [schedTime, scheduleMessages, scheduleGo, w2conv, minDelayMs, maxDelayMs,
      randomDelay, cumDelay, constClock, zeroRand, msgBy]

/-- Claim C3: partial-failure semantics of handleSendAllMessages: a message
whose dispatch throws ends as its original record with scheduledSendTime
cleared (sent in particular unchanged, so still not true), the batch's
sentCount stays strictly below totalCount, the loop still produces an outcome
for every message, and dispatch attempts are made exactly where the sender is
configured and recipients exist — unaffected by the failure. -/
theorem c3_failure_semantics (conv : Conversation) (clock rand : Nat → ℚ)
    (sendResult : Nat → Option String) (b : BatchRun)
    (hb : handleSendAllMessages conv clock rand sendResult = some b)
    (hids : (conv.messages.map Message.id).Nodup)
    (k : Nat) (hk : k < b.log.length)
    (hfail : (b.log.getD k noOutcome).isFailed = true) :
    b.finalMessages.getD k noMessage
        = { conv.messages.getD k noMessage with scheduledSendTime := none }
    ∧ (b.finalMessages.getD k noMessage).sent = (conv.messages.getD k noMessage).sent
    ∧ b.sentCount < b.totalCount
    ∧ b.log.length = b.totalCount
    ∧ (∀ j, j < b.log.length → (b.log.getD j noOutcome).isDispatch
        = wouldDispatch (batchParticipants conv) (conv.messages.getD j noMessage)) := by
  obtain ⟨hbr, hne⟩ := handleSendAllMessages_some conv clock rand sendResult b hb
  subst hbr
  have hlen := runBatch_log_length conv clock rand sendResult
  have hkm : k < conv.messages.length := by rw [← hlen]; exact hk
  have hfinal : (runBatch conv clock rand sendResult).finalMessages.getD k noMessage
      = { conv.messages.getD k noMessage with scheduledSendTime := none } := by
    rw [runBatch_final_getD conv clock rand sendResult hids k hkm]
    rw [runBatch_scheduled, scheduleMessages_getD conv clock rand k hkm]
    cases ho : (runBatch conv clock rand sendResult).log.getD k noOutcome with
    | sendFailed p => rfl
    | sentOk p mid => rw [ho] at hfail; exact absurd hfail (by simp [SendOutcome.isFailed])
    | skippedNoConfig n =>
      rw [ho] at hfail; exact absurd hfail (by simp [SendOutcome.isFailed])
    | skippedNoRecipients =>
      rw [ho] at hfail; exact absurd hfail (by simp [SendOutcome.isFailed])
  refine ⟨hfinal, by rw [hfinal], ?_, ?_, ?_⟩
  · rw [runBatch_sentCount, runBatch_totalCount, ← hlen]
    exact countP_isSent_lt _ k hk (isFailed_not_isSent _ hfail)
  · rw [runBatch_totalCount, hlen]
  · intro j hj
    have hjm : j < conv.messages.length := by rw [← hlen]; exact hj
    rw [runBatch_log_getD conv clock rand sendResult j hjm]
    exact expectedOutcome_isDispatch ..

/-- Witness for C3: in the concrete batch whose second dispatch throws,
message 1 ends unsent with its schedule cleared while messages 0 and 2 were
still dispatched, and 2 = sentCount < totalCount = 3. -/
theorem c3_failure_semantics_witness :
    (handleSendAllMessages w1conv constClock zeroRand w1send = some w1batch
      ∧ (w1conv.messages.map Message.id).Nodup
      ∧ 1 < w1batch.log.length
      ∧ (w1batch.log.getD 1 noOutcome).isFailed = true)
    ∧ (w1batch.finalMessages.getD 1 noMessage
        = { w1conv.messages.getD 1 noMessage with scheduledSendTime := none }
      ∧ (w1batch.finalMessages.getD 1 noMessage).sent
          = (w1conv.messages.getD 1 noMessage).sent
      ∧ w1batch.sentCount < w1batch.totalCount
      ∧ w1batch.log.length = w1batch.totalCount
      ∧ (∀ j, j < w1batch.log.length → (w1batch.log.getD j noOutcome).isDispatch
          = wouldDispatch (batchParticipants w1conv)
              (w1conv.messages.getD j noMessage))) :=
  ⟨⟨rfl, by decide, by decide, by decide⟩,
    c3_failure_semantics w1conv constClock zeroRand w1send w1batch rfl (by decide) 1
      (by decide) (by decide)⟩

/-- Claim C4: skipped-participant accounting of handleSendAllMessages: the
reported skipped names are exactly the deduplicating fold of the unconfigured
messages' account names (so each name appears at most once however many of its
messages were skipped), every message whose sender is missing or lacks
emailConfig gets the skip outcome (no dispatch) and its account name appears
in the list, and the batch continues: one outcome per message, totalCount the
full message count, sentCount the number of successes. -/
theorem c4_skipped_accounting (conv : Conversation) (clock rand : Nat → ℚ)
    (sendResult : Nat → Option String) (b : BatchRun)
    (hb : handleSendAllMessages conv clock rand sendResult = some b) :
    b.skippedAccountNames = skipFold (batchParticipants conv) [] conv.messages
    ∧ b.skippedAccountNames.Nodup
    ∧ b.log.length = conv.messages.length
    ∧ b.totalCount = conv.messages.length
    ∧ b.sentCount = b.log.countP (fun o => o.isSent)
    ∧ (∀ i, i < conv.messages.length →
        senderUnconfigured (batchParticipants conv) (conv.messages.getD i noMessage)
          = true →
        b.log.getD i noOutcome
            = .skippedNoConfig (conv.messages.getD i noMessage).accountName
        ∧ (conv.messages.getD i noMessage).accountName ∈ b.skippedAccountNames) := by
  obtain ⟨hbr, hne⟩ := handleSendAllMessages_some conv clock rand sendResult b hb
  subst hbr
  have hskip := runBatch_skipped conv clock rand sendResult
  refine ⟨hskip, ?_, runBatch_log_length .., runBatch_totalCount ..,
    runBatch_sentCount .., ?_⟩
  · rw [hskip]
    exact skipFold_nodup _ _ _ List.nodup_nil
  · intro i hi hu
    constructor
    · rw [runBatch_log_getD conv clock rand sendResult i hi]
      exact expectedOutcome_of_unconfigured _ _ _ _ _ hu
    · rw [hskip]
      apply skipFold_mem
      · rw [List.getD_eq_getElem _ _ hi]
        exact List.getElem_mem hi
      · exact hu

/-- Witness for C4: with participant Z lacking emailConfig and one Z-authored
message in a two-message conversation whose other message is sent
successfully, the batch reports skippedAccountNames = [Z's name], sentCount =
1, totalCount = 2. -/
theorem c4_skipped_accounting_witness :
    (handleSendAllMessages w4conv constClock zeroRand w4send = some w4batch)
    ∧ (w4batch.skippedAccountNames = skipFold (batchParticipants w4conv) [] w4conv.messages
      ∧ w4batch.skippedAccountNames.Nodup
      ∧ w4batch.log.length = w4conv.messages.length
      ∧ w4batch.totalCount = w4conv.messages.length
      ∧ w4batch.sentCount = w4batch.log.countP (fun o => o.isSent)
      ∧ (∀ i, i < w4conv.messages.length →
          senderUnconfigured (batchParticipants w4conv) (w4conv.messages.getD i noMessage)
            = true →
          w4batch.log.getD i noOutcome
              = .skippedNoConfig (w4conv.messages.getD i noMessage).accountName
          ∧ (w4conv.messages.getD i noMessage).accountName ∈ w4batch.skippedAccountNames))
    ∧ w4batch.skippedAccountNames = [acctZ.name]
    ∧ w4batch.sentCount = 1
    ∧ w4batch.totalCount = 2 :=
  ⟨rfl, c4_skipped_accounting w4conv constClock zeroRand w4send w4batch rfl,
    by decide, by decide, by decide⟩

/-- Claim C5 counterexample: the source re-reads Date.now() inside the
per-message map callback, so with a clock that advances between the scheduling
steps, message 1 of the concrete two-message fixed-delay batch is scheduled at
its own clock reading plus the cumulative delay (61000 ms) and not at the
batch-start instant plus the cumulative delay (60000 ms), falsifying the
single-fixed-baseline claim. -/
theorem c5_fixed_now_counterexample :
    ((scheduleMessages c5conv advClock zeroRand).getD 1 noMessage).scheduledSendTime
        = some 61000
    ∧ advClock 0 + cumDelay (minDelayMs c5conv) (maxDelayMs c5conv) zeroRand 1 = 60000
    ∧ ¬ (((scheduleMessages c5conv advClock zeroRand).getD 1 noMessage).scheduledSendTime
        = some (advClock 0
            + cumDelay (minDelayMs c5conv) (maxDelayMs c5conv) zeroRand 1)) := by
  have h1 : ((scheduleMessages c5conv advClock zeroRand).getD 1
      noMessage).scheduledSendTime = some 61000 := by
    norm_num [scheduleMessages, scheduleGo, c5conv, minDelayMs, maxDelayMs, randomDelay,
      cumDelay, advClock, zeroRand, msgBy]
  have h2 : advClock 0 + cumDelay (minDelayMs c5conv) (maxDelayMs c5conv) zeroRand 1
      = 60000 := by
    norm_num [advClock, cumDelay, randomDelay, minDelayMs, maxDelayMs, c5conv, zeroRand]
  refine ⟨h1, h2, ?_⟩
  rw [h1, h2]
  intro hcontra
  have := Option.some.inj hcontra
  norm_num at this

/-- Claim C5 amended: the "now" value is re-read from the clock during each
message's own scheduling step, so each scheduled time is that step's clock
reading plus the cumulative delay; only when the clock does not advance during
the (synchronous) pass does every scheduled time equal the batch-start instant
plus the cumulative sum of the drawn delays. -/
theorem c5_now_per_message (conv : Conversation) (clock rand : Nat → ℚ) (i : Nat)
    (hi : i < conv.messages.length) :
    ((scheduleMessages conv clock rand).getD i noMessage).scheduledSendTime
        = some (clock i + cumDelay (minDelayMs conv) (maxDelayMs conv) rand i)
    ∧ ((∀ j, clock j = clock 0) →
        ((scheduleMessages conv clock rand).getD i noMessage).scheduledSendTime
          = some (clock 0 + cumDelay (minDelayMs conv) (maxDelayMs conv) rand i)) := by
  constructor
  · rw [scheduleMessages_getD conv clock rand i hi]
  · intro hc
    rw [scheduleMessages_getD conv clock rand i hi, hc i]

/-- Witness for the amended C5 at the concrete two-message batch. -/
theorem c5_now_per_message_witness :
    1 < c5conv.messages.length
    ∧ (((scheduleMessages c5conv advClock zeroRand).getD 1 noMessage).scheduledSendTime
        = some (advClock 1 + cumDelay (minDelayMs c5conv) (maxDelayMs c5conv) zeroRand 1)
      ∧ ((∀ j, advClock j = advClock 0) →
        ((scheduleMessages c5conv advClock zeroRand).getD 1 noMessage).scheduledSendTime
          = some (advClock 0
              + cumDelay (minDelayMs c5conv) (maxDelayMs c5conv) zeroRand 1))) :=
  ⟨by decide, c5_now_per_message c5conv advClock zeroRand 1 (by decide)⟩

/-- Claim C6 counterexample: the only message of the concrete one-message
conversation is already marked sent, yet the batch assigns it a
scheduledSendTime and dispatches it again — handleSendAllMessages does not
restrict itself to not-yet-sent messages. -/
theorem c6_resends_sent_counterexample :
    (c6conv.messages.getD 0 noMessage).sent = some true
    ∧ ((c6batch.scheduled.getD 0 noMessage).scheduledSendTime).isSome = true
    ∧ (c6batch.log.getD 0 noOutcome).isDispatch = true
    ∧ (c6batch.log.getD 0 noOutcome).isSent = true := by
  refine ⟨by decide, by decide, by decide, by decide⟩

/-- Claim C6 amended: the batch consumes every message of the conversation
regardless of its sent flag: a message already marked sent is re-scheduled,
and when its sender is configured, recipients exist and the transport
succeeds, it is re-dispatched. -/
theorem c6_consumes_all_messages (conv : Conversation) (clock rand : Nat → ℚ)
    (sendResult : Nat → Option String) (b : BatchRun)
    (hb : handleSendAllMessages conv clock rand sendResult = some b)
    (i : Nat) (hi : i < conv.messages.length)
    (_hsent : (conv.messages.getD i noMessage).sent = some true)
    (hconf : senderUnconfigured (batchParticipants conv)
        (conv.messages.getD i noMessage) = false)
    (hrec : ((batchParticipants conv).filter
        (fun acc => acc.id != (conv.messages.getD i noMessage).accountId)).isEmpty
        = false)
    (mid : String) (hs : sendResult i = some mid) :
    ((b.scheduled.getD i noMessage).scheduledSendTime).isSome = true
    ∧ (b.log.getD i noOutcome).isSent = true
    ∧ (b.log.getD i noOutcome).sentId = some mid := by
  obtain ⟨hbr, hne⟩ := handleSendAllMessages_some conv clock rand sendResult b hb
  subst hbr
  have hlog : (runBatch conv clock rand sendResult).log.getD i noOutcome
      = .sentOk (prevAt none (runBatch conv clock rand sendResult).log i) mid := by
    rw [runBatch_log_getD conv clock rand sendResult i hi]
    exact expectedOutcome_of_success _ _ _ _ _ _ hconf hrec hs
  refine ⟨?_, by rw [hlog]; rfl, by rw [hlog]; rfl⟩
  rw [runBatch_scheduled, scheduleMessages_getD conv clock rand i hi]
  rfl

/-- Witness for the amended C6: the already-sent message of the concrete batch
is re-scheduled and successfully re-dispatched with the stubbed transport id. -/
theorem c6_consumes_all_messages_witness :
    (handleSendAllMessages c6conv constClock zeroRand c6send = some c6batch
      ∧ 0 < c6conv.messages.length
      ∧ (c6conv.messages.getD 0 noMessage).sent = some true
      ∧ senderUnconfigured (batchParticipants c6conv)
          (c6conv.messages.getD 0 noMessage) = false
      ∧ ((batchParticipants c6conv).filter
          (fun acc => acc.id != (c6conv.messages.getD 0 noMessage).accountId)).isEmpty
          = false
      ∧ c6send 0 = some c6tid)
    ∧ (((c6batch.scheduled.getD 0 noMessage).scheduledSendTime).isSome = true
      ∧ (c6batch.log.getD 0 noOutcome).isSent = true
      ∧ (c6batch.log.getD 0 noOutcome).sentId = some c6tid) :=
  ⟨⟨rfl, by decide, by decide, by decide, by decide, rfl⟩,
    c6_consumes_all_messages c6conv constClock zeroRand c6send c6batch rfl 0 (by decide)
      (by decide) (by decide) (by decide) c6tid rfl⟩

/-- Claim C7: full-conversation generation: with a selected sender and other
participants, call k of the loop uses the round-robin sender
participants[k % participants.length] with participants =
[selectedAccount, ...otherAccounts], call 0 receives the existing messages as
history and every next call receives the previous history plus the message
generated from the previous reply; on the first generation error (k-th call,
all earlier ones succeeded) the loop stops after that call and the
conversation is left unchanged — the loop's messages are discarded and only
already-present ones kept; when all conversationLength calls succeed, exactly
those generated messages are appended after the existing ones and the prompt
is cleared. -/
theorem c7_generation_loop (conv : Conversation) (gen : Nat → Option GenReply)
    (idGen : Nat → String) (tsGen : Nat → ℚ) (sel : Account)
    (hsel : conv.selectedAccount = some sel)
    (hothers : conv.otherAccounts ≠ []) :
    (∀ k, k < (handleGenerateFullConversation conv gen idGen tsGen).2.length →
      ((handleGenerateFullConversation conv gen idGen tsGen).2.getD k noCall).sender
        = genSender (sel :: conv.otherAccounts) k)
    ∧ (0 < (handleGenerateFullConversation conv gen idGen tsGen).2.length →
        ((handleGenerateFullConversation conv gen idGen tsGen).2.getD 0 noCall).history
          = conv.messages)
    ∧ (∀ k, k + 1 < (handleGenerateFullConversation conv gen idGen tsGen).2.length →
        ∃ rep, gen k = some rep
          ∧ ((handleGenerateFullConversation conv gen idGen tsGen).2.getD (k + 1)
                noCall).history
            = ((handleGenerateFullConversation conv gen idGen tsGen).2.getD k
                noCall).history
              ++ [genMessageAt (sel :: conv.otherAccounts) idGen tsGen k rep])
    ∧ (∀ k, k < conv.conversationLength → gen k = none →
        (∀ j, j < k → (gen j).isSome = true) →
        (handleGenerateFullConversation conv gen idGen tsGen).1 = conv
        ∧ (handleGenerateFullConversation conv gen idGen tsGen).2.length = k + 1)
    ∧ ((∀ j, j < conv.conversationLength → (gen j).isSome = true) →
        (handleGenerateFullConversation conv gen idGen tsGen).1.messages.take
            conv.messages.length = conv.messages
        ∧ (handleGenerateFullConversation conv gen idGen tsGen).1.messages.length
            = conv.messages.length + conv.conversationLength
        ∧ (handleGenerateFullConversation conv gen idGen tsGen).1.prompt = ""
        ∧ (∀ k, k < conv.conversationLength →
            ∃ rep, gen k = some rep
              ∧ (handleGenerateFullConversation conv gen idGen tsGen).1.messages.getD
                  (conv.messages.length + k) noMessage
                = genMessageAt (sel :: conv.otherAccounts) idGen tsGen k rep)) := by
  have hne : conv.otherAccounts.isEmpty = false := by
    cases ho : conv.otherAccounts with
    | nil => exact absurd ho hothers
    | cons a rest => rfl
  rcases hgl : genLoop (sel :: conv.otherAccounts) gen idGen tsGen 0
      conv.conversationLength conv.messages with ⟨calls, msgs, ok⟩
  obtain ⟨hok, hfail, hcalls, hmsgs⟩ := genLoop_spec (sel :: conv.otherAccounts) gen
    idGen tsGen conv.conversationLength 0 conv.messages calls msgs ok hgl
  have hsnd : (handleGenerateFullConversation conv gen idGen tsGen).2 = calls := by
    cases hb2 : ok with
    | true => simp [handleGenerateFullConversation, hsel, hne, hgl, hb2]
    | false => simp [handleGenerateFullConversation, hsel, hne, hgl, hb2]
  refine ⟨?_, ?_, ?_, ?_, ?_⟩
  · intro k hk
    rw [hsnd] at hk ⊢
    rw [hcalls k hk]
    simp [genCallAt, genSender]
  · intro hlen0
    rw [hsnd] at hlen0 ⊢
    rw [hcalls 0 hlen0]
    simp [genCallAt]
  · intro k hk
    rw [hsnd] at hk ⊢
    have hkc : k < calls.length := by omega
    have hkm : k < msgs.length := by
      cases hb2 : ok with
      | true =>
        obtain ⟨hc1, hc2⟩ := hok hb2
        omega
      | false =>
        obtain ⟨hf1, hf2, hf3⟩ := hfail hb2
        omega
    obtain ⟨rep, hrep, hmsgk⟩ := hmsgs k hkm
    refine ⟨rep, by simpa using hrep, ?_⟩
    rw [hcalls (k + 1) hk, hcalls k hkc]
    simp only [genCallAt]
    rw [take_succ_getD _ noMessage k hkm, hmsgk]
    simp [List.append_assoc]
  · intro k hkL hgk hprevk
    have hb2 : ok = false := by
      cases hb3 : ok with
      | false => rfl
      | true =>
        obtain ⟨hc1, hc2⟩ := hok hb3
        have hkm : k < msgs.length := by omega
        obtain ⟨rep, hrep, _⟩ := hmsgs k hkm
        rw [Nat.zero_add] at hrep
        rw [hrep] at hgk
        exact absurd hgk (by simp)
    obtain ⟨hf1, hf2, hf3⟩ := hfail hb2
    rw [Nat.zero_add] at hf3
    have hmk : msgs.length = k := by
      rcases Nat.lt_trichotomy msgs.length k with h | h | h
      · have hx := hprevk _ h
        rw [hf3] at hx
        simp at hx
      · exact h
      · obtain ⟨rep, hrep, _⟩ := hmsgs k h
        rw [Nat.zero_add] at hrep
        rw [hrep] at hgk
        exact absurd hgk (by simp)
    constructor
    · simp [handleGenerateFullConversation, hsel, hne, hgl, hb2]
    · rw [hsnd, hf1, hmk]
  · intro hall
    have hb2 : ok = true := by
      cases hb3 : ok with
      | true => rfl
      | false =>
        obtain ⟨hf1, hf2, hf3⟩ := hfail hb3
        have hx := hall _ hf2
        rw [Nat.zero_add] at hf3
        rw [hf3] at hx
        simp at hx
    obtain ⟨hc1, hc2⟩ := hok hb2
    have hmsgsf : (handleGenerateFullConversation conv gen idGen tsGen).1.messages
        = conv.messages ++ msgs := by
      simp [handleGenerateFullConversation, hsel, hne, hgl, hb2]
    have hpromptf : (handleGenerateFullConversation conv gen idGen tsGen).1.prompt
        = "" := by
      simp [handleGenerateFullConversation, hsel, hne, hgl, hb2]
    refine ⟨?_, ?_, hpromptf, ?_⟩
    · rw [hmsgsf]
      exact List.take_left ..
    · rw [hmsgsf]
      simp [hc2]
    · intro k hkL
      have hkm : k < msgs.length := by omega
      obtain ⟨rep, hrep, hmsgk⟩ := hmsgs k hkm
      refine ⟨rep, by simpa using hrep, ?_⟩
      rw [hmsgsf, getD_append_offset _ _ _ k hkm, hmsgk]
      simp

/-- Witness for C7 at the all-successful concrete generation run: round-robin
senders throughout, and the three generated messages appended after the
(empty) existing history. -/
theorem c7_generation_loop_witness :
    (w7conv.selectedAccount = some acctA ∧ w7conv.otherAccounts ≠ [])
    ∧ (∀ k, k < (handleGenerateFullConversation w7conv w7gen w7idGen w7tsGen).2.length →
        ((handleGenerateFullConversation w7conv w7gen w7idGen w7tsGen).2.getD k
            noCall).sender = genSender (acctA :: w7conv.otherAccounts) k)
    ∧ ((∀ j, j < w7conv.conversationLength → (w7gen j).isSome = true) →
        (handleGenerateFullConversation w7conv w7gen w7idGen w7tsGen).1.messages.take
            w7conv.messages.length = w7conv.messages
        ∧ (handleGenerateFullConversation w7conv w7gen w7idGen w7tsGen).1.messages.length
            = w7conv.messages.length + w7conv.conversationLength
        ∧ (handleGenerateFullConversation w7conv w7gen w7idGen w7tsGen).1.prompt = ""
        ∧ (∀ k, k < w7conv.conversationLength →
            ∃ rep, w7gen k = some rep
              ∧ (handleGenerateFullConversation w7conv w7gen w7idGen
                    w7tsGen).1.messages.getD (w7conv.messages.length + k) noMessage
                = genMessageAt (acctA :: w7conv.otherAccounts) w7idGen w7tsGen k rep)) :=
  ⟨⟨rfl, by decide⟩,
    (c7_generation_loop w7conv w7gen w7idGen w7tsGen acctA rfl (by decide)).1,
    (c7_generation_loop w7conv w7gen w7idGen w7tsGen acctA rfl (by decide)).2.2.2.2⟩

/-- Claim C8: delay-bound ordering invariant: every conversation reachable
through creation, the min/max delay edit handlers, and storage migration
satisfies maxDelayMinutes ≥ minDelayMinutes; editing the minimum above the
current maximum raises the maximum to match, and editing the maximum below the
current minimum lowers the minimum to match. -/
theorem c8_delay_bounds :
    (∀ c : Conversation, ReachableConv c → c.minDelayMinutes ≤ c.maxDelayMinutes)
    ∧ (∀ (c : Conversation) (v : ℚ), c.maxDelayMinutes < v →
        (setMinDelayMinutes c v).maxDelayMinutes = v
        ∧ (setMinDelayMinutes c v).minDelayMinutes = v)
    ∧ (∀ (c : Conversation) (v : ℚ), v < c.minDelayMinutes →
        (setMaxDelayMinutes c v).minDelayMinutes = v
        ∧ (setMaxDelayMinutes c v).maxDelayMinutes = v) := by
  refine ⟨reachable_delay_le, ?_, ?_⟩
  · intro c v hv
    exact ⟨by simp [setMinDelayMinutes, hv], by simp [setMinDelayMinutes]⟩
  · intro c v hv
    exact ⟨by simp [setMaxDelayMinutes, hv], by simp [setMaxDelayMinutes]⟩

/-- Witness for C8: a freshly created conversation (bounds 1 and 5) whose
minimum is edited to 9 stays ordered because the maximum is raised to 9, and
editing its maximum down to 2 lowers the minimum to 2. -/
theorem c8_delay_bounds_witness :
    ReachableConv w8conv
    ∧ w8conv.minDelayMinutes ≤ w8conv.maxDelayMinutes
    ∧ (mkConversation w8name w8id).maxDelayMinutes < 9
    ∧ (setMinDelayMinutes (mkConversation w8name w8id) 9).maxDelayMinutes = 9
    ∧ (2 : ℚ) < w8conv.minDelayMinutes
    ∧ (setMaxDelayMinutes w8conv 2).minDelayMinutes = 2 := by
  have hr : ReachableConv w8conv :=
    ReachableConv.editMin _ 9 (ReachableConv.created w8name w8id)
  refine ⟨hr, c8_delay_bounds.1 w8conv hr, by norm_num [mkConversation], ?_, ?_, ?_⟩
  · exact (c8_delay_bounds.2.1 (mkConversation w8name w8id) 9
      (by norm_num [mkConversation])).1
  · norm_num [w8conv, setMinDelayMinutes, mkConversation]
  · exact (c8_delay_bounds.2.2 w8conv 2
      (by norm_num [w8conv, setMinDelayMinutes, mkConversation])).1

/-- Claim C9: frame property of the per-message result writes: the success
write (mark sent, clear schedule, store Message-ID) and the failure write
(clear schedule) preserve the list length, replace exactly the positions whose
message id equals the dispatched message's id, and leave every other message
unchanged. -/
theorem c9_write_frame (msgs : List Message) (targetId mid : String) (j : Nat)
    (hj : j < msgs.length) :
    (markSent msgs targetId mid).length = msgs.length
    ∧ (markFailed msgs targetId).length = msgs.length
    ∧ ((msgs.getD j noMessage).id ≠ targetId →
        (markSent msgs targetId mid).getD j noMessage = msgs.getD j noMessage
        ∧ (markFailed msgs targetId).getD j noMessage = msgs.getD j noMessage)
    ∧ ((msgs.getD j noMessage).id = targetId →
        (markSent msgs targetId mid).getD j noMessage
            = { msgs.getD j noMessage with
                sent := some true, scheduledSendTime := none,
                emailMessageId := some mid }
        ∧ (markFailed msgs targetId).getD j noMessage
            = { msgs.getD j noMessage with scheduledSendTime := none }) := by
  refine ⟨markSent_length .., markFailed_length .., ?_, ?_⟩
  · intro h
    rw [markSent_getD _ _ _ j hj, markFailed_getD _ _ j hj, if_neg h, if_neg h]
    exact ⟨rfl, rfl⟩
  · intro h
    rw [markSent_getD _ _ _ j hj, markFailed_getD _ _ j hj, if_pos h, if_pos h]
    exact ⟨rfl, rfl⟩

/-- Witness for C9 on the concrete three-message list, targeting the second
message's id: the first message is untouched by either write. -/
theorem c9_write_frame_witness :
    0 < w1conv.messages.length
    ∧ ((markSent w1conv.messages idm1 tid0).length = w1conv.messages.length
      ∧ (markFailed w1conv.messages idm1).length = w1conv.messages.length
      ∧ ((w1conv.messages.getD 0 noMessage).id ≠ idm1 →
          (markSent w1conv.messages idm1 tid0).getD 0 noMessage
              = w1conv.messages.getD 0 noMessage
          ∧ (markFailed w1conv.messages idm1).getD 0 noMessage
              = w1conv.messages.getD 0 noMessage)
      ∧ ((w1conv.messages.getD 0 noMessage).id = idm1 →
          (markSent w1conv.messages idm1 tid0).getD 0 noMessage
              = { w1conv.messages.getD 0 noMessage with
                  sent := some true, scheduledSendTime := none,
                  emailMessageId := some tid0 }
          ∧ (markFailed w1conv.messages idm1).getD 0 noMessage
              = { w1conv.messages.getD 0 noMessage with scheduledSendTime := none })) :=
  ⟨by decide, c9_write_frame w1conv.messages idm1 tid0 0 (by decide)⟩

/-- Claim C10: a message the dispatch loop skips (unconfigured sender or empty
recipient list) is never written back after the scheduling pass: its final
record equals its scheduled record, so it still carries the stale
scheduledSendTime assigned by the scheduling pass, and its sent flag is
exactly what it was before the batch. -/
theorem c10_skipped_stale_schedule (conv : Conversation) (clock rand : Nat → ℚ)
    (sendResult : Nat → Option String) (b : BatchRun)
    (hb : handleSendAllMessages conv clock rand sendResult = some b)
    (hids : (conv.messages.map Message.id).Nodup)
    (i : Nat) (hi : i < b.log.length)
    (hskip : (b.log.getD i noOutcome).isSkip = true) :
    b.finalMessages.getD i noMessage = b.scheduled.getD i noMessage
    ∧ (b.scheduled.getD i noMessage).scheduledSendTime
        = some (clock i + cumDelay (minDelayMs conv) (maxDelayMs conv) rand i)
    ∧ (b.finalMessages.getD i noMessage).sent = (conv.messages.getD i noMessage).sent := by
  obtain ⟨hbr, hne⟩ := handleSendAllMessages_some conv clock rand sendResult b hb
  subst hbr
  have hlen := runBatch_log_length conv clock rand sendResult
  have him : i < conv.messages.length := by rw [← hlen]; exact hi
  have hfinal : (runBatch conv clock rand sendResult).finalMessages.getD i noMessage
      = (runBatch conv clock rand sendResult).scheduled.getD i noMessage := by
    rw [runBatch_final_getD conv clock rand sendResult hids i him]
    exact applyWrite_of_isSkip _ _ hskip
  have hsched : ((runBatch conv clock rand sendResult).scheduled.getD i
      noMessage).scheduledSendTime
      = some (clock i + cumDelay (minDelayMs conv) (maxDelayMs conv) rand i) := by
    rw [runBatch_scheduled, scheduleMessages_getD conv clock rand i him]
  refine ⟨hfinal, hsched, ?_⟩
  rw [hfinal, runBatch_scheduled, scheduleMessages_getD conv clock rand i him]

/-- Witness for C10: the skipped Z-authored message of the concrete batch ends
exactly as scheduled, stale schedule included, with sent untouched. -/
theorem c10_skipped_stale_schedule_witness :
    (handleSendAllMessages w4conv constClock zeroRand w4send = some w4batch
      ∧ (w4conv.messages.map Message.id).Nodup
      ∧ 1 < w4batch.log.length
      ∧ (w4batch.log.getD 1 noOutcome).isSkip = true)
    ∧ (w4batch.finalMessages.getD 1 noMessage = w4batch.scheduled.getD 1 noMessage
      ∧ (w4batch.scheduled.getD 1 noMessage).scheduledSendTime
          = some (constClock 1
              + cumDelay (minDelayMs w4conv) (maxDelayMs w4conv) zeroRand 1)
      ∧ (w4batch.finalMessages.getD 1 noMessage).sent
          = (w4conv.messages.getD 1 noMessage).sent) :=
  ⟨⟨rfl, by decide, by decide, by decide⟩,
    c10_skipped_stale_schedule w4conv constClock zeroRand w4send w4batch rfl (by decide)
      1 (by decide) (by decide)⟩

end EmailSystem
